import Mathlib

/-!
# Verification of the healthcare-claims ingestion and aggregation core

Shallow embedding of the ingestion/normalization pipeline and the aggregation
engine of the claims-processor repository (`src/app/root.tsx`,
`src/app/utils/fixedFileParser.server.ts`, `src/prisma/schema.prisma`),
together with theorems settling the frozen claims C1–C10.

Numeric cell values are modelled as rationals (`ℚ`): the source works with JS
doubles, and every concrete value appearing in the claims is exactly
representable; the non-finite values `NaN`/`Infinity` are outside the model.
-/

namespace Claims

/-! ## JS character-level primitives -/

/-- The set of code points matched by the JS regex class `\s` and removed by
`String.prototype.trim`: ECMAScript WhiteSpace (TAB, VT, FF, SP, NBSP, ZWNBSP
and the Unicode Space_Separator category) together with LineTerminator
(LF, CR, LS, PS). -/
def jsWhitespace (c : Char) : Bool :=
  c.toNat = 32 || c.toNat = 9 || c.toNat = 10 || c.toNat = 13 ||
  c.toNat = 11 || c.toNat = 12 ||
  c.toNat = 0xA0 || c.toNat = 0xFEFF || c.toNat = 0x1680 ||
  (0x2000 ≤ c.toNat && c.toNat ≤ 0x200A) ||
  c.toNat = 0x2028 || c.toNat = 0x2029 || c.toNat = 0x202F ||
  c.toNat = 0x205F || c.toNat = 0x3000

/-- The code points kept by the final `replace(/[^a-z0-9_]/g, '')` step of
`normalizeFieldName`: `a`–`z` (97–122), `0`–`9` (48–57) and `_` (95). -/
def keptChar (c : Char) : Bool :=
  (97 ≤ c.toNat && c.toNat ≤ 122) || (48 ≤ c.toNat && c.toNat ≤ 57) ||
  c.toNat = 95

/-- `String.prototype.trim`: drop leading and trailing JS whitespace. -/
def trimChars (l : List Char) : List Char :=
  ((l.dropWhile jsWhitespace).reverse.dropWhile jsWhitespace).reverse

/-- `replace(/\s+/g, '_')`: each maximal run of JS whitespace becomes a single
underscore.  The flag records whether the previous character was part of a
whitespace run already replaced. -/
def collapseWs : Bool → List Char → List Char
  | _, [] => []
  | prevWs, c :: rest =>
    if jsWhitespace c then
      if prevWs then collapseWs true rest
      else '_' :: collapseWs true rest
    else c :: collapseWs false rest

/-- `normalizeFieldName` from the source: trim, lowercase, collapse whitespace
runs to `_`, strip everything outside `[a-z0-9_]`.  `Char.toLower` models the
ASCII fragment of `toLowerCase`; the full Unicode mapping agrees with it on
every character of the output alphabet `[a-z0-9_]` (all of which are fixed
points of lowercasing), which is the only property the theorems use. -/
def normalizeFieldName (s : String) : String :=
  ⟨(collapseWs false ((trimChars s.data).map Char.toLower)).filter keptChar⟩

theorem kept_not_ws {c : Char} (h : keptChar c = true) : jsWhitespace c = false := by
  simp only [keptChar, Bool.or_eq_true, Bool.and_eq_true, decide_eq_true_eq] at h
  simp only [jsWhitespace, Bool.or_eq_false_iff, Bool.and_eq_false_iff,
    decide_eq_false_iff_not]
  omega

theorem kept_toLower {c : Char} (h : keptChar c = true) : c.toLower = c := by
  simp only [keptChar, Bool.or_eq_true, Bool.and_eq_true, decide_eq_true_eq] at h
  unfold Char.toLower
  rw [if_neg (by omega)]

theorem dropWhile_ws_eq_self {l : List Char}
    (h : ∀ c ∈ l, jsWhitespace c = false) : l.dropWhile jsWhitespace = l := by
  cases l with
  | nil => rfl
  | cons c rest =>
    rw [List.dropWhile_cons]
    simp [h c (List.mem_cons_self c rest)]

theorem trimChars_eq_self {l : List Char}
    (h : ∀ c ∈ l, jsWhitespace c = false) : trimChars l = l := by
  unfold trimChars
  rw [dropWhile_ws_eq_self h, dropWhile_ws_eq_self, List.reverse_reverse]
  intro c hc
  exact h c (List.mem_reverse.mp hc)

theorem collapseWs_eq_self {l : List Char} (b : Bool)
    (h : ∀ c ∈ l, jsWhitespace c = false) : collapseWs b l = l := by
  induction l generalizing b with
  | nil => rfl
  | cons c rest ih =>
    unfold collapseWs
    rw [h c (List.mem_cons_self c rest)]
    simp only [Bool.false_eq_true, if_false]
    rw [ih false (fun d hd => h d (List.mem_cons_of_mem c hd))]

theorem map_toLower_eq_self {l : List Char}
    (h : ∀ c ∈ l, keptChar c = true) : l.map Char.toLower = l := by
  induction l with
  | nil => rfl
  | cons c rest ih =>
    simp only [List.map_cons, List.cons.injEq]
    exact ⟨kept_toLower (h c (List.mem_cons_self c rest)),
      ih (fun d hd => h d (List.mem_cons_of_mem c hd))⟩

theorem normalizeFieldName_chars_kept (s : String) :
    ∀ c ∈ (normalizeFieldName s).data, keptChar c = true := by
  intro c hc
  exact List.of_mem_filter hc

theorem normalizeFieldName_fixed {s : String}
    (h : ∀ c ∈ s.data, keptChar c = true) : normalizeFieldName s = s := by
  have hnw : ∀ c ∈ s.data, jsWhitespace c = false :=
    fun c hc => kept_not_ws (h c hc)
  unfold normalizeFieldName
  rw [trimChars_eq_self hnw, map_toLower_eq_self h, collapseWs_eq_self _ hnw,
    List.filter_eq_self.mpr h]

/-! ## JS values

The embedding fixes the host timezone to UTC, so a `Date` object is fully
described by its time value (milliseconds since the Unix epoch) and
local-calendar arithmetic (`new Date(y, m, d)`, `setDate`, `getFullYear`)
coincides with UTC-calendar arithmetic.  Invalid `Date` objects and the
non-finite numbers `NaN`/`Infinity` are outside the model. -/

/-- An untyped JS cell value as it can occur in a raw row or a cleaned
record.  `date ms` is a valid `Date` object with time value `ms`. -/
inductive JSValue
  | null
  | undef
  | num (q : ℚ)
  | str (s : String)
  | bool (b : Bool)
  | date (ms : ℤ)
deriving DecidableEq, Repr

/-- JS truthiness of a value (`if (v)`). -/
def jsTruthy : JSValue → Bool
  | .null => false
  | .undef => false
  | .num q => q ≠ 0
  | .str s => s ≠ ""
  | .bool b => b
  | .date _ => true

/-! ## `parseFloat` and the currency/number coercion (C8) -/

def isDigit (c : Char) : Bool := 48 ≤ c.toNat && c.toNat ≤ 57

/-- The natural number denoted by a digit string (most significant first). -/
def digitsToNat (ds : List Char) : ℕ :=
  ds.foldl (fun acc c => acc * 10 + (c.toNat - 48)) 0

/-- Consume an optional single `+`/`-` sign; `true` means negative. -/
def parseSign (l : List Char) : Bool × List Char :=
  match l with
  | [] => (false, [])
  | c :: rest =>
    if c = '-' then (true, rest)
    else if c = '+' then (false, rest)
    else (false, c :: rest)

/-- The value of the optional exponent tail after `e`/`E` in a JS
StrDecimalLiteral: if no digit follows, the exponent marker is not part of
the parsed prefix and the exponent is 0. -/
def expPart (l : List Char) : ℤ :=
  let sn := parseSign l
  let ds := sn.2.takeWhile isDigit
  if ds = [] then 0
  else if sn.1 then -(digitsToNat ds : ℤ) else (digitsToNat ds : ℤ)

/-- Split an optional fraction part `. digits` off the front of `l`. -/
def dotSplit (l : List Char) : List Char × List Char :=
  match l with
  | [] => ([], [])
  | c :: rest =>
    if c = '.' then (rest.takeWhile isDigit, rest.dropWhile isDigit) else ([], l)

/-- The optional exponent `(e|E) [+-]? digits` at the front of `l` (0 when
absent or when no digit follows the marker). -/
def expOf (l : List Char) : ℤ :=
  match l with
  | [] => 0
  | c :: rest => if c = 'e' ∨ c = 'E' then expPart rest else 0

/-- Lex `[+-]? digits [. digits]` off the front of `l`: sign, integer
digits, fraction digits, and the unconsumed rest. -/
def decTail (l : List Char) : Bool × List Char × List Char × List Char :=
  ((parseSign l).1, (parseSign l).2.takeWhile isDigit,
    dotSplit ((parseSign l).2.dropWhile isDigit))

/-- The rational value of a decimal literal with sign `neg`, integer digits
`intDs`, fraction digits `fracDs` and decimal exponent `e`:
`± intDs.fracDs × 10 ^ e`.  Written with `mkRat` over integer arithmetic so
that the kernel can evaluate it on concrete inputs. -/
def decLitVal (neg : Bool) (intDs fracDs : List Char) (e : ℤ) : ℚ :=
  let n : ℤ := (digitsToNat intDs : ℤ) * 10 ^ fracDs.length + (digitsToNat fracDs : ℤ)
  let n : ℤ := if neg then -n else n
  if 0 ≤ e then mkRat (n * 10 ^ e.toNat) (10 ^ fracDs.length)
  else mkRat n (10 ^ fracDs.length * 10 ^ (-e).toNat)

/-- JS `parseFloat`, parsing phase: skip leading whitespace, then take the
longest prefix of the form `[+-]? digits [. digits] [(e|E) [+-]? digits]`
(at least one digit before or after the dot); trailing garbage is ignored;
no valid prefix gives `NaN`, modelled as `none`.  The `Infinity` literal is
outside the model. -/
def decLitParse (s : String) : Option (Bool × List Char × List Char × ℤ) :=
  if (decTail (s.data.dropWhile jsWhitespace)).2.1 = [] ∧
      (decTail (s.data.dropWhile jsWhitespace)).2.2.1 = [] then none
  else some ((decTail (s.data.dropWhile jsWhitespace)).1,
    (decTail (s.data.dropWhile jsWhitespace)).2.1,
    (decTail (s.data.dropWhile jsWhitespace)).2.2.1,
    expOf (decTail (s.data.dropWhile jsWhitespace)).2.2.2)

/-- JS `parseFloat`: the value of the longest decimal-literal prefix, or
`none` for `NaN`. -/
def jsParseFloat (s : String) : Option ℚ :=
  (decLitParse s).map fun x => decLitVal x.1 x.2.1 x.2.2.1 x.2.2.2

/-- `value.replace(/[\$,]/g, '')`: drop every `$` and `,`. -/
def stripCurrency (s : String) : String :=
  ⟨s.data.filter (fun c => !(c == '$' || c == ','))⟩

/-- The currency/number branch of `cleanRow`: strings go through
`parseFloat` after stripping `$` and `,`; `null`/`undefined` skip the
`Number()` conversion and the final `isNaN` check maps `undefined` (NaN) to
`null` while `null` (`isNaN(null) = false`) also ends up `null` because it
was never assigned a number; other values go through `Number()`
(`Number(bool)` is 0/1, `Number(date)` is its time value); a NaN result
becomes `null`. -/
def coerceCurrency : JSValue → JSValue
  | .str s =>
    match jsParseFloat (stripCurrency s) with
    | some q => .num q
    | none => .null
  | .null => .null
  | .undef => .null
  | .num q => .num q
  | .bool b => .num (if b then 1 else 0)
  | .date ms => .num (ms : ℚ)

/-- Modelled from the claim's words for C8: parse the **whole** stripped
remainder as a decimal numeral `[+-]? digits [. digits]`, any other
remainder being a failure (`null`). -/
def strictDecimal? (s : String) : Option ℚ :=
  if ((decTail s.data).2.1 = [] ∧ (decTail s.data).2.2.1 = []) ∨
      (decTail s.data).2.2.2 ≠ [] then none
  else some (decLitVal (decTail s.data).1 (decTail s.data).2.1
    (decTail s.data).2.2.1 0)

/-- C9: the header normalizer is idempotent — `normalize (normalize h) =
normalize h` for every header string `h`; it is a pure total Lean function,
so it never fails on any input. -/
theorem C9_normalizeFieldName_idempotent (h : String) :
    normalizeFieldName (normalizeFieldName h) = normalizeFieldName h :=
  normalizeFieldName_fixed (normalizeFieldName_chars_kept h)

theorem digit_not_ws {c : Char} (h : isDigit c = true) : jsWhitespace c = false := by
  simp only [isDigit, Bool.and_eq_true, decide_eq_true_eq] at h
  simp only [jsWhitespace, Bool.or_eq_false_iff, Bool.and_eq_false_iff,
    decide_eq_false_iff_not]
  omega

theorem decTail_head_not_ws {l : List Char}
    (h : ¬((decTail l).2.1 = [] ∧ (decTail l).2.2.1 = [])) :
    l.dropWhile jsWhitespace = l := by
  cases l with
  | nil => exact absurd ⟨rfl, rfl⟩ h
  | cons c t =>
    rw [List.dropWhile_cons]
    have hc : jsWhitespace c = false := by
      by_cases h1 : c = '-'
      · subst h1; decide
      by_cases h2 : c = '+'
      · subst h2; decide
      by_cases h3 : isDigit c
      · exact digit_not_ws h3
      by_cases h4 : c = '.'
      · subst h4; decide
      exfalso
      apply h
      simp only [decTail, parseSign, if_neg h1, if_neg h2, List.takeWhile_cons,
        List.dropWhile_cons, h3, Bool.false_eq_true, if_false, dotSplit,
        if_neg h4]
      exact ⟨trivial, trivial⟩
    simp [hc]

theorem jsParseFloat_of_strict {s : String} {q : ℚ}
    (h : strictDecimal? s = some q) : jsParseFloat s = some q := by
  unfold strictDecimal? at h
  by_cases hcond : ((decTail s.data).2.1 = [] ∧ (decTail s.data).2.2.1 = []) ∨
      (decTail s.data).2.2.2 ≠ []
  · rw [if_pos hcond] at h
    exact absurd h (by simp)
  · rw [if_neg hcond] at h
    rw [not_or, not_not] at hcond
    obtain ⟨hne, hrest⟩ := hcond
    have hdrop : s.data.dropWhile jsWhitespace = s.data := decTail_head_not_ws hne
    unfold jsParseFloat decLitParse
    rw [hdrop, if_neg hne, hrest]
    simpa [expOf] using h

/-- Modelled from the claim's words for C8: the textual branch of the
claimed currency coercion parses the **whole** stripped remainder as a
decimal numeral and yields `null` on any other remainder. -/
def currencyClaimed (s : String) : JSValue :=
  match strictDecimal? (stripCurrency s) with
  | some q => .num q
  | none => .null

/-- C8 counterexample: at the textual input `"12abc"` the stripped remainder
`12abc` is not a decimal numeral, so the claim's reading ("non-numeric
remainder yields null") gives `null`; the source applies `parseFloat`, which
parses the longest numeric prefix and yields `12`. -/
theorem C8_counterexample :
    coerceCurrency (.str "12abc") = .num (mkRat 12 1) ∧
    currencyClaimed "12abc" = .null ∧
    coerceCurrency (.str "12abc") ≠ currencyClaimed "12abc" := by decide

/-- C8 (amended): the coercion strips `$` and `,` from textual input and
parses the remainder with JS `parseFloat`, which accepts the longest numeric
prefix (so a remainder that is entirely a decimal numeral parses exactly as
the claim states, but a numeric prefix followed by garbage parses to the
prefix's value rather than `null`); numeric input is used directly;
`null`/`undefined` and unparseable text yield `null`; the function is total
(never raises).  `mkRat 2469 2` is `1234.50`. -/
theorem C8_currencyCoercion :
    (∀ q : ℚ, coerceCurrency (.num q) = .num q) ∧
    coerceCurrency .null = .null ∧
    coerceCurrency .undef = .null ∧
    (∀ s q, strictDecimal? (stripCurrency s) = some q →
      coerceCurrency (.str s) = .num q) ∧
    (∀ s, jsParseFloat (stripCurrency s) = none → coerceCurrency (.str s) = .null) ∧
    coerceCurrency (.str "$1,234.50") = .num (mkRat 2469 2) ∧
    coerceCurrency (.str "abc") = .null := by
  refine ⟨fun q => rfl, rfl, rfl, ?_, ?_, by decide, by decide⟩
  · intro s q h
    simp [coerceCurrency, jsParseFloat_of_strict h]
  · intro s h
    simp [coerceCurrency, h]

/-- Witness for C8: the amended theorem applied at the concrete input
`"$1,234.50"`, discharging the strict-decimal hypothesis by computation. -/
theorem C8_currencyCoercion_witness :
    coerceCurrency (.str "$1,234.50") = .num (mkRat 2469 2) :=
  C8_currencyCoercion.2.2.2.1 "$1,234.50" (mkRat 2469 2) (by decide)

/-! ## Calendar dates and `parseDate` (C2)

Civil-calendar/day-number conversions in the proleptic Gregorian calendar
(day 0 = 1970-01-01), the standard era-based algorithm, used to express what
JS `Date` construction computes.  Floor division (`Int.fdiv`/`Int.emod`)
matches the mathematical definition for negative years/days. -/

/-- The day number of the civil date `y-m-d` (`1 ≤ m ≤ 12`), days since
1970-01-01. -/
def daysFromCivil (y m d : ℤ) : ℤ :=
  let y' := if m ≤ 2 then y - 1 else y
  let era := Int.fdiv y' 400
  let yoe := y' - era * 400
  let mp := Int.emod (m + 9) 12
  let doy := Int.fdiv (153 * mp + 2) 5 + d - 1
  let doe := yoe * 365 + Int.fdiv yoe 4 - Int.fdiv yoe 100 + doy
  era * 146097 + doe - 719468

/-- The civil date `(y, m, d)` of a day number (inverse of
`daysFromCivil`). -/
def civilFromDays (z : ℤ) : ℤ × ℤ × ℤ :=
  let z' := z + 719468
  let era := Int.fdiv z' 146097
  let doe := z' - era * 146097
  let yoe := Int.fdiv (doe - Int.fdiv doe 1460 + Int.fdiv doe 36524 -
    Int.fdiv doe 146096) 365
  let y := yoe + era * 400
  let doy := doe - (365 * yoe + Int.fdiv yoe 4 - Int.fdiv yoe 100)
  let mp := Int.fdiv (5 * doy + 2) 153
  let d := doy - Int.fdiv (153 * mp + 2) 5 + 1
  let m := if mp < 10 then mp + 3 else mp - 9
  (if m ≤ 2 then y + 1 else y, m, d)

/-- Milliseconds per day. -/
def msPerDay : ℤ := 86400000

/-- `getFullYear()` of a `Date` with time value `ms` (host timezone fixed to
UTC). -/
def msYear (ms : ℤ) : ℤ := (civilFromDays (Int.fdiv ms msPerDay)).1

/-- ES `MakeDay`: the civil day for year `y`, 0-based month `m` and
day-of-month `dt`, normalizing month and day overflow the way JS does
(`ym = y + ⌊m/12⌋`, `mn = m mod 12`, then day `dt` counted from the first of
that month). -/
def jsMakeDay (y m dt : ℤ) : ℤ :=
  daysFromCivil (y + Int.fdiv m 12) (Int.emod m 12 + 1) 1 + (dt - 1)

/-- ES `MakeFullYear` as applied by the `Date(year, month, day)`
constructor: a year argument between 0 and 99 inclusive denotes
`1900 + year`. -/
def makeFullYear (y : ℤ) : ℤ := if 0 ≤ y ∧ y ≤ 99 then 1900 + y else y

/-- The civil day of `new Date(y, m, dt)` (0-based month `m`): the
constructor applies the two-digit-year rule `MakeFullYear` to the year
argument before `MakeDay`. -/
def jsDateCivil (y m dt : ℤ) : ℤ := jsMakeDay (makeFullYear y) m dt

/-- ES `ToInteger` of `scale * q`: truncation toward zero, computed on the
numerator/denominator representation (`trunc (scale * n/d) = (scale * n) /t d`
with `t`-division, since `d > 0`).  `msTrunc q 1000` is the time value of
`new Date(q * 1000)`, `msTrunc q 1` that of `new Date(q)`. -/
def msTrunc (q : ℚ) (scale : ℤ) : ℤ := (scale * q.num) / (q.den : ℤ)

/-- The day-of-month value `ToInteger (30 + q)` passed to `setDate` in the
Excel-serial branch (`excelEpoch.getDate() + dateInput` with
`excelEpoch.getDate() = 30`), computed on the numerator/denominator
representation: `trunc (30 + n/d) = (30*d + n) /t d` since `d > 0`. -/
def excelDayOfMonth (q : ℚ) : ℤ := (30 * (q.den : ℤ) + q.num) / (q.den : ℤ)

/-- The time value produced by the Excel-serial branch: `new Date(1899, 11,
30)` (midnight, December 1899) followed by `setDate(30 + dateInput)`, i.e.
local midnight of `MakeDay(1899, 11, trunc (30 + dateInput))`. -/
def excelMs (q : ℚ) : ℤ := (daysFromCivil 1899 12 1 + (excelDayOfMonth q - 1)) * msPerDay

/-- Split a character list on `/` (models matching against
`^\d{1,2}\/\d{1,2}\/\d{4}$` followed by `split('/')`). -/
def splitSlash : List Char → List (List Char)
  | [] => [[]]
  | c :: rest =>
    if c = '/' then [] :: splitSlash rest
    else
      match splitSlash rest with
      | [] => [[c]]
      | p :: ps => (c :: p) :: ps

/-- The test `/^\d{1,2}\/\d{1,2}\/\d{4}$/` plus
`split('/').map(Number)`: a string of exactly three `/`-separated all-digit
groups of lengths 1–2, 1–2 and 4 yields `(month, day, year)` as numbers. -/
def matchMDY (s : String) : Option (ℤ × ℤ × ℤ) :=
  match splitSlash s.data with
  | [a, b, c] =>
    if (1 ≤ a.length ∧ a.length ≤ 2 ∧ a.all isDigit) ∧
        (1 ≤ b.length ∧ b.length ≤ 2 ∧ b.all isDigit) ∧
        (c.length = 4 ∧ c.all isDigit) then
      some ((digitsToNat a : ℤ), (digitsToNat b : ℤ), (digitsToNat c : ℤ))
    else none
  | _ => none

/-- `parseDate` of `src/app/root.tsx` (the CSV-pipeline variant),
parameterized by the implementation-defined generic date parser
`g` = `new Date(string)` (`none` = Invalid Date).  Returns the `Date`'s
time value, or `none` for a `null` result.  Total by construction — no
input raises. -/
def parseDateRoot (g : String → Option ℤ) : JSValue → Option ℤ
  | .null => none
  | .undef => none
  | .num q =>
    if 1000 < q ∧ q < 100000 then some (excelMs q)
    else if q < 10000000000 then some (msTrunc q 1000)
    else some (msTrunc q 1)
  | .str s =>
    match matchMDY s with
    | some (m, d, y) => some (jsDateCivil y (m - 1) d * msPerDay)
    | none => g s
  | .bool _ => none
  | .date _ => none

/-- `parseDate` of `src/app/utils/fixedFileParser.server.ts`: additionally
passes an already-valid `Date` through, returns `null` for numeric input
below 1000, and trims string input before the empty check, the `MM/DD/YYYY`
regex and the generic parse.  Total by construction. -/
def parseDateFixed (g : String → Option ℤ) : JSValue → Option ℤ
  | .null => none
  | .undef => none
  | .date ms => some ms
  | .num q =>
    if q < 1000 then none
    else if 1000 < q ∧ q < 100000 then some (excelMs q)
    else if q < 10000000000 then some (msTrunc q 1000)
    else some (msTrunc q 1)
  | .str s =>
    if trimChars s.data = [] then none
    else
      match matchMDY ⟨trimChars s.data⟩ with
      | some (m, d, y) => some (jsDateCivil y (m - 1) d * msPerDay)
      | none => g ⟨trimChars s.data⟩
  | .bool _ => none

theorem splitSlash_no_slash {l : List Char} (h : ∀ c ∈ l, c ≠ '/') :
    splitSlash l = [l] := by
  induction l with
  | nil => rfl
  | cons c t ih =>
    unfold splitSlash
    rw [if_neg (h c (List.mem_cons_self c t)),
      ih (fun d hd => h d (List.mem_cons_of_mem c hd))]

theorem matchMDY_all_ws {s : String} (h : s.data.all jsWhitespace = true) :
    matchMDY s = none := by
  have hns : ∀ c ∈ s.data, c ≠ '/' := by
    intro c hc he
    subst he
    exact absurd (List.all_eq_true.mp h _ hc) (by decide)
  unfold matchMDY
  rw [splitSlash_no_slash hns]

theorem dropWhile_ws_nil {l : List Char} (h : l.all jsWhitespace = true) :
    l.dropWhile jsWhitespace = [] := by
  induction l with
  | nil => rfl
  | cons c t ih =>
    rw [List.all_cons, Bool.and_eq_true] at h
    rw [List.dropWhile_cons, if_pos h.1]
    exact ih h.2

theorem trimChars_all_ws {l : List Char} (h : l.all jsWhitespace = true) :
    trimChars l = [] := by
  unfold trimChars
  rw [dropWhile_ws_nil h]
  rfl

/-- C2 counterexample: the `fixedFileParser.server.ts` variant of
`parseDate` returns `null` for the numeric input `500`, where the claim's
resolution order ("any other numeric input below 10,000,000,000 is treated
as a Unix timestamp in seconds") prescribes the instant 500000 ms — which is
what the `root.tsx` variant returns.  Moreover the matching-string branch is
not a plain month/day/year parse: for `"01/15/0099"` the `Date` constructor
applies the two-digit-year rule and both variants return 1999-01-15, not
year 99 as the claim's reading prescribes. -/
theorem C2_counterexample :
    parseDateFixed (fun _ => none) (.num 500) = none ∧
    parseDateRoot (fun _ => none) (.num 500) = some 500000 ∧
    parseDateRoot (fun _ => none) (.str "01/15/0099") =
      some (daysFromCivil 1999 1 15 * msPerDay) ∧
    daysFromCivil 1999 1 15 * msPerDay ≠ daysFromCivil 99 1 15 * msPerDay := by
  refine ⟨?_, ?_, ?_, by decide⟩
  · simp only [parseDateFixed]
    rw [if_pos (by decide)]
  · simp only [parseDateRoot]
    rw [if_neg (by decide), if_pos (by decide)]
    decide
  · simp only [parseDateRoot]
    rw [show matchMDY "01/15/0099" = some (1, 15, 99) from by decide]
    show some (jsDateCivil 99 (1 - 1) 15 * msPerDay) =
      some (daysFromCivil 1999 1 15 * msPerDay)
    decide

/-- C2 (amended): both `parseDate` variants are total functions of the
input (no input raises), and follow the claimed resolution order —
null/absent ↦ null; a numeric strictly between 1000 and 100000 is a serial
day offset from the 1899-12-30 epoch (44197 lands in the year 2021); any
other numeric below 10,000,000,000 is a Unix-seconds timestamp; any other
numeric a milliseconds timestamp; a `\d{1,2}/\d{1,2}/\d{4}` string is
parsed as month/day/year through the `Date(y, m, d)` constructor, which
applies the two-digit-year rule — year groups 0000–0099 denote 1900+y, so
"01/15/2023" gives 2023-01-15 but "01/15/0099" gives 1999-01-15; an
empty/whitespace-only string gives null — **except** that the
`fixedFileParser` variant additionally passes valid `Date` inputs through
unchanged and returns null for every numeric input below 1000 instead of
treating it as a seconds timestamp.  `g` is the implementation-defined
generic string parser (`new Date(string)`), assumed to reject
whitespace-only strings as every engine does. -/
theorem C2_parseDate_resolution (g : String → Option ℤ)
    (hg : ∀ s : String, s.data.all jsWhitespace = true → g s = none) :
    (parseDateRoot g .null = none ∧ parseDateRoot g .undef = none ∧
      parseDateFixed g .null = none ∧ parseDateFixed g .undef = none) ∧
    (∀ q : ℚ, 1000 < q → q < 100000 →
      parseDateRoot g (.num q) = some (excelMs q) ∧
      parseDateFixed g (.num q) = some (excelMs q)) ∧
    (parseDateRoot g (.num 44197) =
        some ((daysFromCivil 1899 12 30 + 44197) * msPerDay) ∧
      msYear ((daysFromCivil 1899 12 30 + 44197) * msPerDay) = 2021) ∧
    (∀ q : ℚ, ¬(1000 < q ∧ q < 100000) → q < 10000000000 →
      parseDateRoot g (.num q) = some (msTrunc q 1000)) ∧
    (∀ q : ℚ, ¬(1000 < q ∧ q < 100000) → ¬(q < 10000000000) →
      parseDateRoot g (.num q) = some (msTrunc q 1)) ∧
    (∀ s m d y, matchMDY s = some (m, d, y) →
      parseDateRoot g (.str s) = some (jsDateCivil y (m - 1) d * msPerDay)) ∧
    (parseDateRoot g (.str "01/15/2023") =
        some (daysFromCivil 2023 1 15 * msPerDay) ∧
      parseDateFixed g (.str "01/15/2023") =
        some (daysFromCivil 2023 1 15 * msPerDay)) ∧
    (parseDateRoot g (.str "01/15/0099") =
        some (daysFromCivil 1999 1 15 * msPerDay) ∧
      parseDateFixed g (.str "01/15/0099") =
        some (daysFromCivil 1999 1 15 * msPerDay)) ∧
    (∀ s : String, s.data.all jsWhitespace = true →
      parseDateRoot g (.str s) = none ∧ parseDateFixed g (.str s) = none) ∧
    (∀ q : ℚ, q < 1000 → parseDateFixed g (.num q) = none) ∧
    (∀ ms : ℤ, parseDateFixed g (.date ms) = some ms) ∧
    (∀ q : ℚ, 1000 ≤ q → parseDateFixed g (.num q) = parseDateRoot g (.num q)) := by
  refine ⟨⟨rfl, rfl, rfl, rfl⟩, ?_, ?_, ?_, ?_, ?_, ?_, ?_, ?_, ?_, fun ms => rfl, ?_⟩
  · intro q h1 h2
    constructor
    · simp only [parseDateRoot]
      rw [if_pos ⟨h1, h2⟩]
    · simp only [parseDateFixed]
      rw [if_neg (not_lt.mpr (le_of_lt h1)), if_pos ⟨h1, h2⟩]
  · constructor
    · simp only [parseDateRoot]
      rw [if_pos (⟨by decide, by decide⟩ : (1000 : ℚ) < 44197 ∧ (44197 : ℚ) < 100000)]
      decide
    · decide
  · intro q h1 h2
    simp only [parseDateRoot]
    rw [if_neg h1, if_pos h2]
  · intro q h1 h2
    simp only [parseDateRoot]
    rw [if_neg h1, if_neg h2]
  · intro s m d y h
    simp only [parseDateRoot]
    rw [h]
  · constructor
    · simp only [parseDateRoot]
      rw [show matchMDY "01/15/2023" = some (1, 15, 2023) from by decide]
      show some (jsDateCivil 2023 (1 - 1) 15 * msPerDay) =
        some (daysFromCivil 2023 1 15 * msPerDay)
      decide
    · simp only [parseDateFixed]
      rw [if_neg (by decide),
        show matchMDY ⟨trimChars "01/15/2023".data⟩ = some (1, 15, 2023) from by decide]
      show some (jsDateCivil 2023 (1 - 1) 15 * msPerDay) =
        some (daysFromCivil 2023 1 15 * msPerDay)
      decide
  · constructor
    · simp only [parseDateRoot]
      rw [show matchMDY "01/15/0099" = some (1, 15, 99) from by decide]
      show some (jsDateCivil 99 (1 - 1) 15 * msPerDay) =
        some (daysFromCivil 1999 1 15 * msPerDay)
      decide
    · simp only [parseDateFixed]
      rw [if_neg (by decide),
        show matchMDY ⟨trimChars "01/15/0099".data⟩ = some (1, 15, 99) from by decide]
      show some (jsDateCivil 99 (1 - 1) 15 * msPerDay) =
        some (daysFromCivil 1999 1 15 * msPerDay)
      decide
  · intro s hws
    constructor
    · simp only [parseDateRoot, matchMDY_all_ws hws]
      exact hg s hws
    · simp only [parseDateFixed]
      rw [if_pos (trimChars_all_ws hws)]
  · intro q h
    simp only [parseDateFixed]
    rw [if_pos h]
  · intro q h
    simp only [parseDateFixed, parseDateRoot]
    rw [if_neg (not_lt.mpr h)]

/-- Witness for C2: the amended theorem applied with the
everywhere-rejecting generic parser, at the serial input 44197, the seconds
input 500, the month/day/year hypothesis for "01/15/2023", and the
whitespace string " ". -/
theorem C2_parseDate_resolution_witness :
    parseDateRoot (fun _ => none) (.num 44197) =
      some ((daysFromCivil 1899 12 30 + 44197) * msPerDay) ∧
    parseDateRoot (fun _ => none) (.num 500) = some (msTrunc 500 1000) ∧
    parseDateRoot (fun _ => none) (.str "01/15/2023") =
      some (jsDateCivil 2023 (1 - 1) 15 * msPerDay) ∧
    parseDateRoot (fun _ => none) (.str " ") = none := by
  have h := C2_parseDate_resolution (fun _ => none) (fun _ _ => rfl)
  exact ⟨h.2.2.1.1,
    h.2.2.2.1 500 (by decide) (by decide),
    h.2.2.2.2.2.1 "01/15/2023" 1 15 2023 (by decide),
    (h.2.2.2.2.2.2.2.2.1 " " (by decide)).1⟩

/-! ## Number-to-string, JS objects, and the Record Builder (C5, C10) -/

/-- The character of a decimal digit. -/
def digitChar (n : ℕ) : Char := Char.ofNat (48 + n)

/-- Decimal digits of `n`, most significant first (fuel-based structural
recursion so that the kernel can evaluate it; `fuel = n` always suffices). -/
def natToCharsFuel : ℕ → ℕ → List Char → List Char
  | 0, n, acc => digitChar n :: acc
  | fuel + 1, n, acc =>
    if n < 10 then digitChar n :: acc
    else natToCharsFuel fuel (n / 10) (digitChar (n % 10) :: acc)

/-- `String(n)` for a natural number. -/
def natRepr (n : ℕ) : String := ⟨natToCharsFuel n n []⟩

/-- `String(n)` for an integer. -/
def intRepr (n : ℤ) : String :=
  if n < 0 then "-" ++ natRepr n.natAbs else natRepr n.toNat

/-- Multiplicity of `p` in `n` (fuel-based). -/
def multOfFuel (p : ℕ) : ℕ → ℕ → ℕ
  | 0, _ => 0
  | fuel + 1, n =>
    if 2 ≤ p ∧ 1 < n ∧ n % p = 0 then multOfFuel p fuel (n / p) + 1 else 0

/-- Multiplicity of `p` in `n`. -/
def multOf (p n : ℕ) : ℕ := multOfFuel p n n

/-- The fractional digits `fp`, left-padded with zeros to width `k`. -/
def fracRepr (fp k : ℕ) : String :=
  ⟨List.replicate (k - (natToCharsFuel fp fp []).length) '0' ++ natToCharsFuel fp fp []⟩

/-- `String(q)` for a JS number.  Exact for integers and for rationals with
a `2^a·5^b` denominator — which covers every value a finite double can take
(doubles have power-of-two denominators), hence everything reachable in the
pipeline; other rationals (artifacts of the `ℚ` model) get an arbitrary
nonempty rendering, and the very large/small magnitudes that JS prints in
exponent notation are rendered in plain decimal.  The theorems rely on
exactness only for integers, and otherwise only on nonemptiness. -/
def numToString (q : ℚ) : String :=
  if q.den = 1 then intRepr q.num
  else
    if q.den = 2 ^ multOf 2 q.den * 5 ^ multOf 5 q.den then
      let k := max (multOf 2 q.den) (multOf 5 q.den)
      let scaled := q.num.natAbs * (10 ^ k / q.den)
      (if q.num < 0 then "-" else "") ++ natRepr (scaled / 10 ^ k) ++ "." ++
        fracRepr (scaled % 10 ^ k) k
    else intRepr q.num ++ "/" ++ natRepr q.den

/-- `String(v)`: JS string conversion.  The display format of a `Date` is
implementation/locale dependent; the model renders its time value, and the
theorems rely only on the result being nonempty. -/
def jsToString : JSValue → String
  | .null => "null"
  | .undef => "undefined"
  | .num q => numToString q
  | .str s => s
  | .bool b => if b then "true" else "false"
  | .date ms => "Date " ++ intRepr ms

/-- Property read `row[k]` on a JS object modelled as an association list in
insertion order; an absent key reads as `undefined`. -/
def objGet (row : List (String × JSValue)) (k : String) : JSValue :=
  match row with
  | [] => .undef
  | p :: t => if p.1 = k then p.2 else objGet t k

/-- Property write `row[k] = v`: overwrite in place if the key exists,
append otherwise (JS property-creation order). -/
def objSet (row : List (String × JSValue)) (k : String) (v : JSValue) :
    List (String × JSValue) :=
  match row with
  | [] => [(k, v)]
  | p :: t => if p.1 = k then (k, v) :: t else p :: objSet t k v

theorem objGet_objSet_self (row : List (String × JSValue)) (k : String)
    (v : JSValue) : objGet (objSet row k v) k = v := by
  induction row with
  | nil => simp [objSet, objGet]
  | cons p t ih =>
    by_cases hp : p.1 = k
    · simp [objSet, objGet, hp]
    · simp only [objSet, if_neg hp, objGet]
      exact ih


theorem objGet_objSet_ne (row : List (String × JSValue)) {k k' : String}
    (v : JSValue) (h : k' ≠ k) : objGet (objSet row k v) k' = objGet row k' := by
  induction row with
  | nil =>
    simp only [objSet, objGet]
    rw [if_neg (fun he => h he.symm)]
  | cons p t ih =>
    by_cases hp : p.1 = k
    · simp only [objSet, if_pos hp, objGet]
      rw [if_neg (fun he => h he.symm), if_neg (by rw [hp]; exact fun he => h he.symm)]
    · simp only [objSet, if_neg hp, objGet]
      by_cases hp' : p.1 = k'
      · rw [if_pos hp', if_pos hp']
      · rw [if_neg hp', if_neg hp']
        exact ih

/-- `FIELD_MAPPING` from the source: normalized header key → database
field. -/
def FIELD_MAPPING : List (String × String) := [
  ("practice_name", "practiceName"),
  ("charge", "charge"),
  ("cpt_code", "cptCode"),
  ("revenue_code", "revenueCode"),
  ("loc", "levelOfCare"),
  ("charge_amount", "chargeAmount"),
  ("payment", "payment"),
  ("allowed_amount", "allowedAmount"),
  ("primary_group", "primaryGroup"),
  ("claim_primary_member_id", "claimPrimaryID"),
  ("payer_name", "payerName"),
  ("payer_group", "payerGroup"),
  ("payment_total_paid", "paymentTotal"),
  ("payment_received", "paymentReceived"),
  ("payment_entered", "paymentEntered"),
  ("charge_from_date", "chargeFromDate"),
  ("charge_to_date", "chargeToDate"),
  ("primary_ins_zip", "primaryInsZip"),
  ("primary_ins_city", "primaryInsCity"),
  ("primary_ins_state", "primaryInsState"),
  ("primary_ins_addr_1", "primaryInsAddr1"),
  ("patient_zip", "patientZip"),
  ("patient_city", "patientCity"),
  ("patient_state", "patientState"),
  ("patient_address_1", "patientAddress1")]

/-- `FIELD_MAPPING[normalizedHeader]`, `none` when the header is unmapped. -/
def fieldMap? (k : String) : Option String :=
  (FIELD_MAPPING.find? (fun p => p.1 = k)).map (fun p => p.2)

/-- The numeric-field set of `cleanRow`
(`fixedFileParser.server.ts`). -/
def numericFields : List String :=
  ["chargeAmount", "payment", "allowedAmount", "paymentTotal"]

/-- The date-field set of `cleanRow`. -/
def dateFields : List String :=
  ["paymentReceived", "paymentEntered", "chargeFromDate", "chargeToDate"]

/-- The string-field set of `cleanRow`. -/
def stringFields : List String := [
  "practiceName", "charge", "cptCode", "revenueCode", "levelOfCare",
  "primaryGroup", "claimPrimaryID", "payerName", "payerGroup", "primaryInsZip",
  "primaryInsCity", "primaryInsState", "primaryInsAddr1", "patientZip",
  "patientCity", "patientState", "patientAddress1", "payerClass", "employerName",
  "prefix", "groupPolicy"]

/-- The string-field branch of `cleanRow`: any non-null/undefined value is
stringified, `null`/`undefined` pass through. -/
def coerceString : JSValue → JSValue
  | .null => .null
  | .undef => .undef
  | v => .str (jsToString v)

/-- The date-field branch of `cleanRow`: `parseDate` (the
`fixedFileParser` variant, which never throws and never yields
`undefined`), wrapping a `Date` result and turning `null` into `null`. -/
def coerceDateF (g : String → Option ℤ) (v : JSValue) : JSValue :=
  match parseDateFixed g v with
  | some ms => .date ms
  | none => .null

/-- The kind-directed coercion of `cleanRow`: date fields through
`parseDate`, numeric fields through the currency coercion, string fields
stringified, anything else untouched. -/
def coerceField (g : String → Option ℤ) (f : String) (v : JSValue) : JSValue :=
  if f ∈ dateFields then coerceDateF g v
  else if f ∈ numericFields then coerceCurrency v
  else if f ∈ stringFields then coerceString v
  else v

/-- One iteration of `cleanRow`'s header loop: normalize the header, look
it up, coerce the raw value according to the target field's kind, assign. -/
def cleanRowStep (g : String → Option ℤ) (row : List (String × JSValue))
    (acc : List (String × JSValue)) (h : String) : List (String × JSValue) :=
  match fieldMap? (normalizeFieldName h) with
  | none => acc
  | some f => objSet acc f (coerceField g f (objGet row h))

/-- The field-processing loop of `cleanRow` (before the level-of-care
derivation). -/
def cleanRowFields (g : String → Option ℤ) (row : List (String × JSValue))
    (headers : List String) : List (String × JSValue) :=
  headers.foldl (cleanRowStep g row) []

/-- The rule table of `deriveLevelOfCare`, applied to an
(already-trimmed) code: first character `1`→IOP, `2`→PHP, `3`→RES,
`4`→DETOX, anything else→OTHER
(`startsWith` on an empty string is false, so empty also gives OTHER). -/
def locOfCode (code : List Char) : String :=
  match code with
  | [] => "OTHER"
  | c :: _ =>
    if c = '1' then "IOP"
    else if c = '2' then "PHP"
    else if c = '3' then "RES"
    else if c = '4' then "DETOX"
    else "OTHER"

/-- `deriveLevelOfCare` from the source: falsy (empty) argument gives
UNKNOWN, otherwise the rule table on the **trimmed** code. -/
def deriveLevelOfCare (revenueCode : String) : String :=
  if revenueCode = "" then "UNKNOWN" else locOfCode (trimChars revenueCode.data)

/-- Modelled from the claim's words for C5: the rule table applied to the
first character of the stringified revenue code (no trimming). -/
def claimedLocRule (code : String) : String := locOfCode code.data

/-- `cleanRow` from `fixedFileParser.server.ts`: process every header, then
derive `levelOfCare` when it is falsy — from `revenueCode` when that is
truthy, as the UNKNOWN sentinel otherwise. -/
def cleanRow (g : String → Option ℤ) (row : List (String × JSValue))
    (headers : List String) : List (String × JSValue) :=
  if ¬ jsTruthy (objGet (cleanRowFields g row headers) "levelOfCare") ∧
      jsTruthy (objGet (cleanRowFields g row headers) "revenueCode") then
    objSet (cleanRowFields g row headers) "levelOfCare"
      (.str (deriveLevelOfCare
        (jsToString (objGet (cleanRowFields g row headers) "revenueCode"))))
  else if ¬ jsTruthy (objGet (cleanRowFields g row headers) "levelOfCare") then
    objSet (cleanRowFields g row headers) "levelOfCare" (.str "UNKNOWN")
  else cleanRowFields g row headers

/-- Shape invariant: along `cleanRowFields`, the value bound to
`levelOfCare` (a string field) is absent, `null`, or a string. -/
def locShape (acc : List (String × JSValue)) : Prop :=
  objGet acc "levelOfCare" = .null ∨ objGet acc "levelOfCare" = .undef ∨
    ∃ s, objGet acc "levelOfCare" = .str s

theorem coerceString_shape (v : JSValue) :
    coerceString v = .null ∨ coerceString v = .undef ∨
      ∃ s, coerceString v = .str s := by
  cases v <;> simp [coerceString]

theorem cleanRowStep_locShape (g : String → Option ℤ)
    (row acc : List (String × JSValue)) (h : String) (ha : locShape acc) :
    locShape (cleanRowStep g row acc h) := by
  unfold cleanRowStep
  cases hm : fieldMap? (normalizeFieldName h) with
  | none => exact ha
  | some f =>
    by_cases hf : f = "levelOfCare"
    · subst hf
      unfold locShape coerceField
      rw [objGet_objSet_self, if_neg (by decide), if_neg (by decide),
        if_pos (by decide)]
      exact coerceString_shape _
    · unfold locShape
      rw [objGet_objSet_ne _ _ (fun he => hf he.symm)]
      exact ha

theorem cleanRowFields_locShape (g : String → Option ℤ)
    (row : List (String × JSValue)) (headers : List String) :
    locShape (cleanRowFields g row headers) := by
  unfold cleanRowFields
  have main : ∀ acc, locShape acc →
      locShape (headers.foldl (cleanRowStep g row) acc) := by
    induction headers with
    | nil => exact fun acc h => h
    | cons hd tl ih =>
      intro acc h
      exact ih _ (cleanRowStep_locShape g row acc hd h)
  exact main [] (Or.inr (Or.inl rfl))

theorem locOfCode_ne_empty (code : List Char) : locOfCode code ≠ "" := by
  cases code with
  | nil => decide
  | cons c t =>
    show (if c = '1' then "IOP"
      else if c = '2' then "PHP" else if c = '3' then "RES"
      else if c = '4' then "DETOX" else "OTHER") ≠ ""
    split_ifs <;> decide

theorem deriveLevelOfCare_ne_empty (code : String) :
    deriveLevelOfCare code ≠ "" := by
  unfold deriveLevelOfCare
  split_ifs
  · decide
  · exact locOfCode_ne_empty _

theorem cleanRow_loc_derive (g : String → Option ℤ)
    (row : List (String × JSValue)) (headers : List String)
    (hl : jsTruthy (objGet (cleanRowFields g row headers) "levelOfCare") = false)
    (hr : jsTruthy (objGet (cleanRowFields g row headers) "revenueCode") = true) :
    objGet (cleanRow g row headers) "levelOfCare" =
      .str (deriveLevelOfCare
        (jsToString (objGet (cleanRowFields g row headers) "revenueCode"))) := by
  unfold cleanRow
  rw [if_pos ⟨by simp [hl], hr⟩]
  exact objGet_objSet_self _ _ _

theorem cleanRow_loc_unknown (g : String → Option ℤ)
    (row : List (String × JSValue)) (headers : List String)
    (hl : jsTruthy (objGet (cleanRowFields g row headers) "levelOfCare") = false)
    (hr : jsTruthy (objGet (cleanRowFields g row headers) "revenueCode") = false) :
    objGet (cleanRow g row headers) "levelOfCare" = .str "UNKNOWN" := by
  unfold cleanRow
  rw [if_neg (fun hc => by rw [hr] at hc; exact absurd hc.2 (by decide)),
    if_pos (by simp [hl])]
  exact objGet_objSet_self _ _ _

theorem cleanRow_loc_keep (g : String → Option ℤ)
    (row : List (String × JSValue)) (headers : List String)
    (hl : jsTruthy (objGet (cleanRowFields g row headers) "levelOfCare") = true) :
    objGet (cleanRow g row headers) "levelOfCare" =
      objGet (cleanRowFields g row headers) "levelOfCare" := by
  unfold cleanRow
  rw [if_neg (fun hc => hc.1 hl), if_neg (fun hc => hc hl)]

/-- C5 counterexample: for a record whose coerced revenue code is the
string `" 250"` (leading space) and whose `levelOfCare` is missing, the
source trims before consulting the rule table and produces `"PHP"`, while
the claim's rule ("first character of the stringified revenue code" —
`' '`, not a listed prefix) produces `"OTHER"`. -/
theorem C5_counterexample :
    objGet (cleanRow (fun _ => none) [("Revenue Code", .str " 250")]
      ["Revenue Code"]) "levelOfCare" = .str "PHP" ∧
    claimedLocRule (jsToString (.str " 250")) = "OTHER" ∧
    ("PHP" : String) ≠ "OTHER" := by decide

/-- C5 (amended): when after coercion `levelOfCare` is falsy (in
particular `null`) and `revenueCode` is truthy (in particular present and
nonempty), `levelOfCare` is derived by applying the ordered rule table
`1`→IOP, `2`→PHP, `3`→RES, `4`→DETOX, other→OTHER to the first character of
the **trimmed** stringified revenue code; when `revenueCode` is also
falsy/absent, `levelOfCare` is set to UNKNOWN.  Concretely, revenue code
250 with no level of care yields PHP, and a record with neither yields
UNKNOWN. -/
theorem C5_levelOfCare_derivation :
    (∀ (g : String → Option ℤ) (row : List (String × JSValue))
      (headers : List String),
      jsTruthy (objGet (cleanRowFields g row headers) "levelOfCare") = false →
      jsTruthy (objGet (cleanRowFields g row headers) "revenueCode") = true →
      objGet (cleanRow g row headers) "levelOfCare" =
        .str (deriveLevelOfCare
          (jsToString (objGet (cleanRowFields g row headers) "revenueCode")))) ∧
    (∀ (g : String → Option ℤ) (row : List (String × JSValue))
      (headers : List String),
      jsTruthy (objGet (cleanRowFields g row headers) "levelOfCare") = false →
      jsTruthy (objGet (cleanRowFields g row headers) "revenueCode") = false →
      objGet (cleanRow g row headers) "levelOfCare" = .str "UNKNOWN") ∧
    (∀ code : String, code ≠ "" →
      deriveLevelOfCare code = claimedLocRule ⟨trimChars code.data⟩) ∧
    deriveLevelOfCare "" = "UNKNOWN" ∧
    objGet (cleanRow (fun _ => none) [("Revenue Code", .num 250)]
      ["Revenue Code"]) "levelOfCare" = .str "PHP" ∧
    objGet (cleanRow (fun _ => none) ([] : List (String × JSValue))
      ([] : List String)) "levelOfCare" = .str "UNKNOWN" := by
  refine ⟨cleanRow_loc_derive, cleanRow_loc_unknown, ?_, by decide, by decide,
    by decide⟩
  intro code hne
  unfold deriveLevelOfCare claimedLocRule
  rw [if_neg hne]

/-- Witness for C5: the derivation and UNKNOWN branches of the amended
theorem applied at concrete rows, hypotheses discharged by computation. -/
theorem C5_levelOfCare_derivation_witness :
    objGet (cleanRow (fun _ => none) [("Revenue Code", .str "250")]
      ["Revenue Code"]) "levelOfCare" =
      .str (deriveLevelOfCare (jsToString (objGet (cleanRowFields (fun _ => none)
        [("Revenue Code", .str "250")] ["Revenue Code"]) "revenueCode"))) ∧
    objGet (cleanRow (fun _ => none) [("LOC", .null)] ["LOC"]) "levelOfCare" =
      .str "UNKNOWN" ∧
    deriveLevelOfCare " 250" = claimedLocRule ⟨trimChars " 250".data⟩ :=
  ⟨C5_levelOfCare_derivation.1 (fun _ => none) [("Revenue Code", .str "250")]
      ["Revenue Code"] (by decide) (by decide),
    C5_levelOfCare_derivation.2.1 (fun _ => none) [("LOC", .null)] ["LOC"]
      (by decide) (by decide),
    C5_levelOfCare_derivation.2.2.1 " 250" (by decide)⟩

/-- C10 (implicit): the record built by `cleanRow` always carries a
nonempty-string `levelOfCare` — any falsy coerced value (`null`, absent, or
the empty string) is replaced by the value derived from `revenueCode` or by
UNKNOWN, and a truthy value is necessarily a nonempty string because
`levelOfCare` is coerced as a string field. -/
theorem C10_levelOfCare_nonempty (g : String → Option ℤ)
    (row : List (String × JSValue)) (headers : List String) :
    (∃ s : String,
      objGet (cleanRow g row headers) "levelOfCare" = .str s ∧ s ≠ "") ∧
    (jsTruthy (objGet (cleanRowFields g row headers) "levelOfCare") = false →
      objGet (cleanRow g row headers) "levelOfCare" =
        .str (deriveLevelOfCare
          (jsToString (objGet (cleanRowFields g row headers) "revenueCode"))) ∨
      objGet (cleanRow g row headers) "levelOfCare" = .str "UNKNOWN") := by
  constructor
  · by_cases hl : jsTruthy (objGet (cleanRowFields g row headers) "levelOfCare") = true
    · rcases cleanRowFields_locShape g row headers with hn | hu | ⟨s, hs⟩
      · rw [hn] at hl
        exact absurd hl (by decide)
      · rw [hu] at hl
        exact absurd hl (by decide)
      · refine ⟨s, ?_, ?_⟩
        · rw [cleanRow_loc_keep g row headers hl]
          exact hs
        · rw [hs] at hl
          simpa [jsTruthy] using hl
    · rw [Bool.not_eq_true] at hl
      by_cases hr : jsTruthy (objGet (cleanRowFields g row headers) "revenueCode") = true
      · exact ⟨_, cleanRow_loc_derive g row headers hl hr,
          deriveLevelOfCare_ne_empty _⟩
      · rw [Bool.not_eq_true] at hr
        exact ⟨"UNKNOWN", cleanRow_loc_unknown g row headers hl hr, by decide⟩
  · intro hl
    by_cases hr : jsTruthy (objGet (cleanRowFields g row headers) "revenueCode") = true
    · exact Or.inl (cleanRow_loc_derive g row headers hl hr)
    · rw [Bool.not_eq_true] at hr
      exact Or.inr (cleanRow_loc_unknown g row headers hl hr)

/-- Witness for C10: at a row whose `LOC` column coerces to the **empty
string** (falsy but not null), the replacement branch fires and yields
UNKNOWN. -/
theorem C10_levelOfCare_nonempty_witness :
    objGet (cleanRow (fun _ => none) [("LOC", .str "")] ["LOC"])
        "levelOfCare" =
      .str (deriveLevelOfCare (jsToString (objGet (cleanRowFields (fun _ => none)
        [("LOC", .str "")] ["LOC"]) "revenueCode"))) ∨
    objGet (cleanRow (fun _ => none) [("LOC", .str "")] ["LOC"])
        "levelOfCare" = .str "UNKNOWN" :=
  (C10_levelOfCare_nonempty (fun _ => none) [("LOC", .str "")] ["LOC"]).2
    (by decide)

/-! ## Aggregation statistics: median (C7) and mode (C1) -/

/-- `[...validAmounts].sort((a, b) => a - b)`: the ascending sort of the
valid amounts (the numeric comparator sorts numerically; equal rationals
are identical, so any stable/unstable sort yields this same list). -/
def sortedAmounts (l : List ℚ) : List ℚ := List.insertionSort (· ≤ ·) l

/-- The median computation of `calculateMetrics`: `middle = ⌊n/2⌋`; for even
`n` the average of `sorted[middle-1]` and `sorted[middle]`, for odd `n`
`sorted[middle]`; 0 for an empty list. -/
def medianOf (l : List ℚ) : ℚ :=
  if 0 < (sortedAmounts l).length then
    if (sortedAmounts l).length % 2 = 0 then
      ((sortedAmounts l).getD ((sortedAmounts l).length / 2 - 1) 0 +
        (sortedAmounts l).getD ((sortedAmounts l).length / 2) 0) / 2
    else (sortedAmounts l).getD ((sortedAmounts l).length / 2) 0
  else 0

/-- C7: the median is the midpoint of the sorted sequence — `sortedAmounts`
is a sorted permutation of the input, the median is its middle element for
odd length and the average of the two middle elements for even length, and
concretely the median of [10, 20, 20, 30] is 20 and of [5, 15] is 10. -/
theorem C7_median (l : List ℚ) (h : l ≠ []) :
    List.Sorted (· ≤ ·) (sortedAmounts l) ∧ List.Perm (sortedAmounts l) l ∧
    (l.length % 2 = 1 → ∃ hi : l.length / 2 < (sortedAmounts l).length,
      medianOf l = (sortedAmounts l).get ⟨l.length / 2, hi⟩) ∧
    (l.length % 2 = 0 →
      ∃ (hi1 : l.length / 2 - 1 < (sortedAmounts l).length)
        (hi2 : l.length / 2 < (sortedAmounts l).length),
      medianOf l = ((sortedAmounts l).get ⟨l.length / 2 - 1, hi1⟩ +
        (sortedAmounts l).get ⟨l.length / 2, hi2⟩) / 2) ∧
    medianOf [10, 20, 20, 30] = 20 ∧ medianOf [5, 15] = 10 := by
  have hlen : (sortedAmounts l).length = l.length :=
    List.length_insertionSort _ _
  have hpos : 0 < l.length := List.length_pos.mpr h
  have hi2 : l.length / 2 < (sortedAmounts l).length := by
    rw [hlen]; exact Nat.div_lt_self hpos (by omega)
  refine ⟨List.sorted_insertionSort _ _, List.perm_insertionSort _ _, ?_, ?_, ?_, ?_⟩
  · intro hodd
    refine ⟨hi2, ?_⟩
    unfold medianOf
    rw [if_pos (by rw [hlen]; exact hpos), if_neg (by rw [hlen]; omega)]
    have hidx : (sortedAmounts l).length / 2 = l.length / 2 := by rw [hlen]
    rw [hidx, List.getD_eq_getElem?_getD, List.getElem?_eq_getElem hi2]
    simp
  · intro heven
    have hi1 : l.length / 2 - 1 < (sortedAmounts l).length := by
      rw [hlen]; omega
    refine ⟨hi1, hi2, ?_⟩
    unfold medianOf
    rw [if_pos (by rw [hlen]; exact hpos), if_pos (by rw [hlen]; omega)]
    have hidx : (sortedAmounts l).length / 2 = l.length / 2 := by rw [hlen]
    rw [hidx, List.getD_eq_getElem?_getD, List.getD_eq_getElem?_getD,
      List.getElem?_eq_getElem hi1, List.getElem?_eq_getElem hi2]
    simp
  · show medianOf [10, 20, 20, 30] = 20
    have hs : sortedAmounts [10, 20, 20, 30] = [10, 20, 20, 30] := by
      norm_num [sortedAmounts, List.insertionSort, List.orderedInsert]
    unfold medianOf
    rw [hs]
    norm_num
  · show medianOf [5, 15] = 10
    have hs : sortedAmounts [5, 15] = [5, 15] := by
      norm_num [sortedAmounts, List.insertionSort, List.orderedInsert]
    unfold medianOf
    rw [hs]
    norm_num

/-- Witness for C7: the theorem applied at the concrete inputs of the
claim. -/
theorem C7_median_witness :
    medianOf [10, 20, 20, 30] = 20 ∧ medianOf [5, 15] = 10 :=
  ⟨(C7_median [10, 20, 20, 30] (by decide)).2.2.2.2.1,
    (C7_median [5, 15] (by decide)).2.2.2.2.2⟩

/-- A rational whose `ToString` image is an array-index property key (a
canonical integer string in `[0, 2^32-1)`); `Object.entries` enumerates
such keys first, in ascending numeric order. -/
def isArrayIndexQ (q : ℚ) : Bool :=
  q.den = 1 && 0 ≤ q.num && q.num < 4294967295

/-- The distinct values of `l` in first-occurrence order: the property
creation order of the `frequency` object built by
`validAmounts.forEach(val => frequency[val] = (frequency[val] || 0) + 1)`. -/
def firstOccs (l : List ℚ) : List ℚ :=
  l.foldl (fun acc v => if v ∈ acc then acc else acc ++ [v]) []

/-- The key order of `Object.entries(frequency)`
(OrdinaryOwnPropertyKeys): array-index keys ascending first, then the
remaining keys in creation order.  `parseFloat(String(v))` recovers `v`
exactly, so entries are modelled by the values; the tallied frequency of
`v` is `l.count v`. -/
def entryOrder (l : List ℚ) : List ℚ :=
  List.insertionSort (· ≤ ·) ((firstOccs l).filter isArrayIndexQ) ++
    (firstOccs l).filter (fun v => ! isArrayIndexQ v)

/-- The mode fold of `calculateMetrics`: walk the tally entries, replacing
the candidate whenever a frequency strictly exceeds the running maximum,
starting from `mode = 0`, `maxFrequency = 0`. -/
def modeLoop (valid : List ℚ) : List ℚ → ℚ → ℕ → ℚ
  | [], mode, _ => mode
  | v :: rest, mode, maxFreq =>
    if maxFreq < valid.count v then modeLoop valid rest v (valid.count v)
    else modeLoop valid rest mode maxFreq

/-- The mode of `calculateMetrics`. -/
def modeOf (valid : List ℚ) : ℚ := modeLoop valid (entryOrder valid) 0 0

/-- The maximum tallied frequency over the entries of `es`. -/
def maxCountOver (valid es : List ℚ) : ℕ :=
  (es.map (fun v => valid.count v)).foldr max 0

/-- The maximum frequency in `valid`. -/
def maxCount (valid : List ℚ) : ℕ := maxCountOver valid valid

/-- Modelled from the claim's words for C1: the first value encountered in
the **input sequence** among those with the maximum frequency. -/
def claimedMode (valid : List ℚ) : ℚ :=
  (valid.find? (fun v => valid.count v = maxCount valid)).getD 0

theorem maxCountOver_cons (valid : List ℚ) (v : ℚ) (rest : List ℚ) :
    maxCountOver valid (v :: rest) =
      max (valid.count v) (maxCountOver valid rest) := rfl

theorem le_maxCountOver (valid : List ℚ) {es : List ℚ} {v : ℚ} (h : v ∈ es) :
    valid.count v ≤ maxCountOver valid es := by
  induction es with
  | nil => cases h
  | cons w rest ih =>
    rw [maxCountOver_cons]
    rcases List.mem_cons.mp h with he | hm
    · subst he; exact Nat.le_max_left _ _
    · exact le_trans (ih hm) (Nat.le_max_right _ _)

theorem maxCountOver_le (valid : List ℚ) {es : List ℚ} {n : ℕ}
    (h : ∀ v ∈ es, valid.count v ≤ n) : maxCountOver valid es ≤ n := by
  induction es with
  | nil => exact Nat.zero_le n
  | cons w rest ih =>
    rw [maxCountOver_cons]
    exact max_le (h w (List.mem_cons_self w rest))
      (ih (fun v hv => h v (List.mem_cons_of_mem w hv)))

theorem modeLoop_no_improve (valid : List ℚ) {es : List ℚ} {mf : ℕ}
    (h : ∀ v ∈ es, valid.count v ≤ mf) (m : ℚ) :
    modeLoop valid es m mf = m := by
  induction es with
  | nil => rfl
  | cons v rest ih =>
    unfold modeLoop
    rw [if_neg (Nat.not_lt.mpr (h v (List.mem_cons_self v rest)))]
    exact ih (fun u hu => h u (List.mem_cons_of_mem v hu))

/-- The mode fold yields the first entry whose frequency equals the maximum
frequency, provided some entry beats the running maximum. -/
theorem modeLoop_finds_first (valid : List ℚ) :
    ∀ (es : List ℚ) (m : ℚ) (mf : ℕ), mf < maxCountOver valid es →
    ∃ a, es.find? (fun v => valid.count v = maxCountOver valid es) = some a ∧
      modeLoop valid es m mf = a := by
  intro es
  induction es with
  | nil => intro m mf h; exact absurd h (by simp [maxCountOver])
  | cons v rest ih =>
    intro m mf h
    rw [maxCountOver_cons] at h
    by_cases hc : mf < valid.count v
    · by_cases hM : maxCountOver valid rest ≤ valid.count v
      · have hmax : max (valid.count v) (maxCountOver valid rest) = valid.count v :=
          max_eq_left hM
      
        refine ⟨v, ?_, ?_⟩
        · rw [List.find?_cons, maxCountOver_cons, hmax]
          simp
        · unfold modeLoop
          rw [if_pos hc]
          exact modeLoop_no_improve valid
            (fun u hu => le_trans (le_maxCountOver valid hu) hM) v
      · push_neg at hM
        have hmax : max (valid.count v) (maxCountOver valid rest) =
            maxCountOver valid rest := max_eq_right (le_of_lt hM)
        obtain ⟨a, hfind, hloop⟩ := ih v (valid.count v) hM
        refine ⟨a, ?_, ?_⟩
        · rw [List.find?_cons, maxCountOver_cons, hmax,
            decide_eq_false (by omega : ¬ valid.count v = maxCountOver valid rest)]
          exact hfind
        · unfold modeLoop
          rw [if_pos hc]
          exact hloop
    · push_neg at hc
      have hM : mf < maxCountOver valid rest := by omega
      have hmax : max (valid.count v) (maxCountOver valid rest) =
          maxCountOver valid rest := max_eq_right (by omega)
      obtain ⟨a, hfind, hloop⟩ := ih m mf hM
      refine ⟨a, ?_, ?_⟩
      · rw [List.find?_cons, maxCountOver_cons, hmax,
          decide_eq_false (by omega : ¬ valid.count v = maxCountOver valid rest)]
        exact hfind
      · unfold modeLoop
        rw [if_neg (Nat.not_lt.mpr hc)]
        exact hloop

theorem mem_firstOccs {l : List ℚ} {x : ℚ} : x ∈ firstOccs l ↔ x ∈ l := by
  have main : ∀ (t acc : List ℚ),
      (x ∈ t.foldl (fun acc v => if v ∈ acc then acc else acc ++ [v]) acc ↔
        x ∈ acc ∨ x ∈ t) := by
    intro t
    induction t with
    | nil => simp
    | cons v rest ih =>
      intro acc
      simp only [List.foldl_cons]
      by_cases hv : v ∈ acc
      · rw [if_pos hv, ih, List.mem_cons]
        constructor
        · rintro (h1 | h2)
          · exact Or.inl h1
          · exact Or.inr (Or.inr h2)
        · rintro (h1 | h2 | h3)
          · exact Or.inl h1
          · subst h2; exact Or.inl hv
          · exact Or.inr h3
      · rw [if_neg hv, ih]
        simp only [List.mem_append, List.mem_singleton, List.mem_cons]
        tauto
  rw [firstOccs, main]
  simp

theorem mem_entryOrder {l : List ℚ} {x : ℚ} : x ∈ entryOrder l ↔ x ∈ l := by
  unfold entryOrder
  rw [List.mem_append, (List.perm_insertionSort (· ≤ ·) _).mem_iff,
    List.mem_filter, List.mem_filter]
  constructor
  · rintro (⟨h, _⟩ | ⟨h, _⟩) <;> exact mem_firstOccs.mp h
  · intro h
    by_cases hA : isArrayIndexQ x
    · exact Or.inl ⟨mem_firstOccs.mpr h, hA⟩
    · exact Or.inr ⟨mem_firstOccs.mpr h, by simpa using hA⟩

theorem maxCountOver_entryOrder (valid : List ℚ) :
    maxCountOver valid (entryOrder valid) = maxCount valid := by
  apply Nat.le_antisymm
  · exact maxCountOver_le valid
      (fun v hv => le_maxCountOver valid (mem_entryOrder.mp hv))
  · exact maxCountOver_le valid
      (fun v hv => le_maxCountOver valid (mem_entryOrder.mpr hv))

/-- C1 counterexample: for the valid amounts `[20, 10]` (both with
frequency 1) the object's integer keys enumerate in ascending numeric
order, so the source's mode is 10, while the claim's tie-break ("first
value encountered in the input sequence") picks 20. -/
theorem C1_counterexample :
    modeOf [20, 10] = 10 ∧ claimedMode [20, 10] = 20 ∧ (10 : ℚ) ≠ 20 := by
  decide

/-- C1 (amended): for every nonempty list of valid amounts the mode is a
most frequent value; when several values share the maximum frequency, the
tie goes to the value that comes first in the iteration order of the
frequency tally, which is **not** input order: non-negative integer
amounts below 2^32-1 come first in ascending numeric order, followed by
the other amounts in order of first occurrence. -/
theorem C1_mode (valid : List ℚ) (h : valid ≠ []) :
    (∃ a, (entryOrder valid).find?
        (fun v => valid.count v = maxCount valid) = some a ∧ modeOf valid = a) ∧
    modeOf valid ∈ valid ∧
    valid.count (modeOf valid) = maxCount valid ∧
    (∀ v ∈ valid, valid.count v ≤ valid.count (modeOf valid)) := by
  obtain ⟨x, t, rfl⟩ : ∃ x t, valid = x :: t := by
    cases valid with
    | nil => exact absurd rfl h
    | cons x t => exact ⟨x, t, rfl⟩
  set valid := x :: t
  have hx : x ∈ valid := List.mem_cons_self x t
  have hpos : 0 < maxCountOver valid (entryOrder valid) := by
    rw [maxCountOver_entryOrder]
    calc 0 < valid.count x := List.count_pos_iff.mpr hx
    _ ≤ maxCount valid := le_maxCountOver valid hx
  obtain ⟨a, hfind, hloop⟩ :=
    modeLoop_finds_first valid (entryOrder valid) 0 0 hpos
  rw [maxCountOver_entryOrder] at hfind
  have hmode : modeOf valid = a := hloop
  have hcount : valid.count a = maxCount valid := by
    have := List.find?_some hfind
    simpa using this
  have hmem : a ∈ valid := mem_entryOrder.mp (List.mem_of_find?_eq_some hfind)
  refine ⟨⟨a, hfind, hmode⟩, by rw [hmode]; exact hmem, by rw [hmode]; exact hcount, ?_⟩
  intro v hv
  rw [hmode, hcount]
  exact le_maxCountOver valid hv

/-- Witness for C1: the amended theorem applied at the concrete list
`[20, 10]`. -/
theorem C1_mode_witness :
    modeOf [20, 10] ∈ [(20 : ℚ), 10] ∧
    ([(20 : ℚ), 10].count (modeOf [20, 10]) = maxCount [20, 10]) :=
  ⟨(C1_mode [20, 10] (by decide)).2.1, (C1_mode [20, 10] (by decide)).2.2.1⟩

/-! ## The aggregation engine `calculateMetrics` (C3) -/

/-- The filter dimensions that participate in the metrics-summary unique
key.  `none` models an absent dimension (the JS property being
`undefined`/missing). -/
structure Filters where
  stateTreatedAt : Option String
  payerName : Option String
  payerClass : Option String
  serviceYear : Option ℤ
  paymentReceivedYear : Option ℤ
deriving DecidableEq, Repr

/-- An empty filter set. -/
def defaultFilters : Filters :=
  { stateTreatedAt := none, payerName := none, payerClass := none,
    serviceYear := none, paymentReceivedYear := none }

/-- One metrics result object as pushed into `results` (the spread
`...filters` carried along). -/
structure Summary where
  levelOfCare : String
  recordCount : ℕ
  averageAllowedAmount : ℚ
  minAllowedAmount : ℚ
  maxAllowedAmount : ℚ
  medianAllowedAmount : ℚ
  modeAllowedAmount : ℚ
  filters : Filters
deriving DecidableEq, Repr

/-- The record store as seen by `calculateMetrics` for one fixed filter
set: `count` and the `allowedAmount` projection of `findMany`, per
level-of-care bucket, each able to fail (`Except.error` models a thrown
storage error). -/
structure DbOps where
  count : String → Except String ℕ
  findAllowed : String → Except String (List (Option ℚ))

/-- `validAmounts.reduce((acc, val) => acc + val, 0)`. -/
def sumOf (l : List ℚ) : ℚ := l.foldl (fun acc v => acc + v) 0

/-- `Math.min(...validAmounts)` for a nonempty list (the source guards the
empty case separately). -/
def minOf : List ℚ → ℚ
  | [] => 0
  | x :: t => t.foldl min x

/-- `Math.max(...validAmounts)` for a nonempty list. -/
def maxOf : List ℚ → ℚ
  | [] => 0
  | x :: t => t.foldl max x

/-- The all-zero summary pushed for an empty bucket. -/
def zeroSummary (loc : String) (f : Filters) : Summary :=
  { levelOfCare := loc, recordCount := 0, averageAllowedAmount := 0,
    minAllowedAmount := 0, maxAllowedAmount := 0, medianAllowedAmount := 0,
    modeAllowedAmount := 0, filters := f }

/-- The statistics object computed from the non-null amounts of a bucket
with `n` matching records. -/
def mkStats (loc : String) (n : ℕ) (valid : List ℚ) (f : Filters) : Summary :=
  { levelOfCare := loc, recordCount := n,
    averageAllowedAmount :=
      if 0 < valid.length then sumOf valid / (valid.length : ℚ) else 0,
    minAllowedAmount := if 0 < valid.length then minOf valid else 0,
    maxAllowedAmount := if 0 < valid.length then maxOf valid else 0,
    medianAllowedAmount := medianOf valid,
    modeAllowedAmount := modeOf valid,
    filters := f }

/-- The record count for a bucket: a thrown `count` error is caught and
replaced by 0. -/
def bucketCount (db : DbOps) (loc : String) : ℕ :=
  match db.count loc with
  | .ok n => n
  | .error _ => 0

/-- One iteration of the bucket loop of `calculateMetrics`: a zero count
(or a count failure) pushes the zero summary; a `findMany` failure is
caught and pushes the zero statistics with the already-computed record
count; otherwise the statistics over the non-null amounts are pushed. -/
def bucketSummary (db : DbOps) (f : Filters) (loc : String) : Summary :=
  if bucketCount db loc = 0 then zeroSummary loc f
  else
    match db.findAllowed loc with
    | .error _ => { zeroSummary loc f with recordCount := bucketCount db loc }
    | .ok allowed => mkStats loc (bucketCount db loc) (allowed.filterMap id) f

/-- The closed bucket domain. -/
def levelsOfCare : List String := ["DETOX", "RES", "PHP", "IOP", "OTHER"]

/-- The `for (const levelOfCare of levelsOfCare)` loop, accumulating
`results.push(...)`. -/
def calculateMetricsLoop (db : DbOps) (f : Filters) :
    List String → List Summary → List Summary
  | [], results => results
  | loc :: rest, results =>
    calculateMetricsLoop db f rest (results ++ [bucketSummary db f loc])

/-- `calculateMetrics` (the returned list; the upsert side effects are
modelled separately by `upsertMetrics`).  Total by construction: no filter
set or store behavior makes it raise. -/
def calculateMetrics (db : DbOps) (f : Filters) : List Summary :=
  calculateMetricsLoop db f levelsOfCare []

theorem calculateMetricsLoop_eq (db : DbOps) (f : Filters) :
    ∀ (locs : List String) (acc : List Summary),
      calculateMetricsLoop db f locs acc = acc ++ locs.map (bucketSummary db f) := by
  intro locs
  induction locs with
  | nil => intro acc; simp [calculateMetricsLoop]
  | cons loc rest ih =>
    intro acc
    rw [calculateMetricsLoop, ih]
    simp

theorem bucketSummary_levelOfCare (db : DbOps) (f : Filters) (loc : String) :
    (bucketSummary db f loc).levelOfCare = loc := by
  unfold bucketSummary
  split
  · rfl
  · split <;> rfl

/-- A storage layer whose count succeeds with 5 but whose amount query
throws. -/
def dbBadFind : DbOps :=
  { count := fun _ => .ok 5, findAllowed := fun _ => .error "storage error" }

/-- A storage layer with no matching records. -/
def dbEmptyCount : DbOps :=
  { count := fun _ => .ok 0, findAllowed := fun _ => .ok [] }

/-- C3 counterexample: when the bucket's `findMany` throws after a
successful count of 5, the pushed fallback summary keeps
`recordCount = 5` with zeroed statistics — it is not the zero-valued
summary (`recordCount = 0`) the claim describes. -/
theorem C3_counterexample :
    (calculateMetrics dbBadFind defaultFilters).head? =
      some { zeroSummary "DETOX" defaultFilters with recordCount := 5 } ∧
    ({ zeroSummary "DETOX" defaultFilters with recordCount := 5 }).recordCount ≠ 0 := by
  decide

/-- C3 (amended): for every filter set and store behavior,
`calculateMetrics` returns exactly one summary per bucket of
{DETOX, RES, PHP, IOP, OTHER}, in order, and (being a total function)
never raises; a bucket with zero matching records — including a failing
`count` — yields the all-zero summary; a `findMany` failure after a
successful nonzero count is caught and yields a summary with the computed
record count and all five statistics 0; and each bucket's summary depends
only on the store's responses for that bucket, so a failure in one bucket
cannot affect another. -/
theorem C3_calculateMetrics (db : DbOps) (f : Filters) :
    calculateMetrics db f = levelsOfCare.map (bucketSummary db f) ∧
    (calculateMetrics db f).length = 5 ∧
    (calculateMetrics db f).map (fun s => s.levelOfCare) = levelsOfCare ∧
    (∀ loc, bucketCount db loc = 0 → bucketSummary db f loc = zeroSummary loc f) ∧
    (∀ loc e, db.count loc = .error e → bucketSummary db f loc = zeroSummary loc f) ∧
    (∀ loc n e, db.count loc = .ok n → n ≠ 0 → db.findAllowed loc = .error e →
      bucketSummary db f loc = { zeroSummary loc f with recordCount := n }) ∧
    (∀ (db' : DbOps) loc, db.count loc = db'.count loc →
      db.findAllowed loc = db'.findAllowed loc →
      bucketSummary db f loc = bucketSummary db' f loc) := by
  have heq : calculateMetrics db f = levelsOfCare.map (bucketSummary db f) := by
    unfold calculateMetrics
    rw [calculateMetricsLoop_eq]
    rfl
  refine ⟨heq, by rw [heq]; rfl, ?_, ?_, ?_, ?_, ?_⟩
  · rw [heq, List.map_map]
    have : (fun s => Summary.levelOfCare s) ∘ bucketSummary db f = fun loc => loc := by
      funext loc
      exact bucketSummary_levelOfCare db f loc
    rw [this]
    exact List.map_id _
  · intro loc h
    unfold bucketSummary
    rw [if_pos h]
  · intro loc e h
    unfold bucketSummary
    rw [if_pos (by unfold bucketCount; rw [h])]
  · intro loc n e hn hne hf
    have hbc : bucketCount db loc = n := by unfold bucketCount; rw [hn]
    unfold bucketSummary
    rw [if_neg (by rw [hbc]; exact hne)]
    rw [hf, hbc]
  · intro db' loc hc hf
    unfold bucketSummary bucketCount
    rw [hc, hf]

/-- Witness for C3: the amended theorem applied at the concrete stores —
a throwing `findMany` after a count of 5, and an empty bucket. -/
theorem C3_calculateMetrics_witness :
    bucketSummary dbBadFind defaultFilters "DETOX" =
      { zeroSummary "DETOX" defaultFilters with recordCount := 5 } ∧
    bucketSummary dbEmptyCount defaultFilters "RES" =
      zeroSummary "RES" defaultFilters :=
  ⟨(C3_calculateMetrics dbBadFind defaultFilters).2.2.2.2.2.1 "DETOX" 5
      "storage error" rfl (by decide) rfl,
    (C3_calculateMetrics dbEmptyCount defaultFilters).2.2.2.1 "RES" rfl⟩

/-! ## The `CalculatedMetrics` summary store and its upsert (C6) -/

/-- One row of the `CalculatedMetrics` table (`src/prisma/schema.prisma`):
the six key columns (`stateTreatedAt`, …, `paymentReceivedYear` nullable)
and the statistics payload.  The unused nullable columns
(`employerName`, `prefix`, `groupPolicy`, `policyHolderState`) are never
touched by `calculateMetrics` and are omitted. -/
structure MetricsRow where
  levelOfCare : String
  stateTreatedAt : Option String
  payerName : Option String
  payerClass : Option String
  serviceYear : Option ℤ
  paymentReceivedYear : Option ℤ
  recordCount : ℕ
  averageAllowedAmount : ℚ
  minAllowedAmount : ℚ
  maxAllowedAmount : ℚ
  medianAllowedAmount : ℚ
  modeAllowedAmount : ℚ
deriving DecidableEq, Repr

/-- The composite unique key
`levelOfCare_stateTreatedAt_payerName_payerClass_serviceYear_paymentReceivedYear`
as built by the upsert call: missing dimensions replaced by the `''`/`0`
sentinels (`(filters.x as string) || ''`, `(filters.y as number) || 0`;
`Option.getD` agrees with `||` on every value a dimension can hold, since
the falsy values `''` and `0` coincide with the sentinels). -/
structure MetricsKey where
  levelOfCare : String
  stateTreatedAt : String
  payerName : String
  payerClass : String
  serviceYear : ℤ
  paymentReceivedYear : ℤ
deriving DecidableEq, Repr

/-- The `where` key of the upsert call for a bucket and filter set. -/
def metricsKey (loc : String) (f : Filters) : MetricsKey :=
  { levelOfCare := loc,
    stateTreatedAt := f.stateTreatedAt.getD "",
    payerName := f.payerName.getD "",
    payerClass := f.payerClass.getD "",
    serviceYear := f.serviceYear.getD 0,
    paymentReceivedYear := f.paymentReceivedYear.getD 0 }

/-- The row created from the `metrics` object (`{levelOfCare, …stats…,
...filters}`): a dimension absent from the filter set is simply not a
property of the object, so the created column is NULL. -/
def metricsRow (s : Summary) : MetricsRow :=
  { levelOfCare := s.levelOfCare,
    stateTreatedAt := s.filters.stateTreatedAt,
    payerName := s.filters.payerName,
    payerClass := s.filters.payerClass,
    serviceYear := s.filters.serviceYear,
    paymentReceivedYear := s.filters.paymentReceivedYear,
    recordCount := s.recordCount,
    averageAllowedAmount := s.averageAllowedAmount,
    minAllowedAmount := s.minAllowedAmount,
    maxAllowedAmount := s.maxAllowedAmount,
    medianAllowedAmount := s.medianAllowedAmount,
    modeAllowedAmount := s.modeAllowedAmount }

/-- SQL equality of a stored row against the unique key: a NULL column
matches no value. -/
def rowMatchesKey (r : MetricsRow) (k : MetricsKey) : Bool :=
  r.levelOfCare = k.levelOfCare &&
  r.stateTreatedAt = some k.stateTreatedAt &&
  r.payerName = some k.payerName &&
  r.payerClass = some k.payerClass &&
  r.serviceYear = some k.serviceYear &&
  r.paymentReceivedYear = some k.paymentReceivedYear

/-- A field update from the `update: metrics` payload: a property present
in the object overwrites, an absent one leaves the column unchanged. -/
def updDim {α : Type} (new old : Option α) : Option α :=
  match new with
  | none => old
  | some v => some v

/-- Applying the `update: metrics` payload to an existing row. -/
def applyMetrics (old : MetricsRow) (s : Summary) : MetricsRow :=
  { levelOfCare := s.levelOfCare,
    stateTreatedAt := updDim s.filters.stateTreatedAt old.stateTreatedAt,
    payerName := updDim s.filters.payerName old.payerName,
    payerClass := updDim s.filters.payerClass old.payerClass,
    serviceYear := updDim s.filters.serviceYear old.serviceYear,
    paymentReceivedYear := updDim s.filters.paymentReceivedYear old.paymentReceivedYear,
    recordCount := s.recordCount,
    averageAllowedAmount := s.averageAllowedAmount,
    minAllowedAmount := s.minAllowedAmount,
    maxAllowedAmount := s.maxAllowedAmount,
    medianAllowedAmount := s.medianAllowedAmount,
    modeAllowedAmount := s.modeAllowedAmount }

/-- Modelled from the spec: the summary store's
`upsert(uniqueKey, updateValues, createValues)` operation (the Prisma
`calculatedMetrics.upsert` call against the `@@unique` index; the store
engine itself is outside `src/`): update the row matching the unique key if
one exists, insert the `create` payload otherwise. -/
def upsertMetrics (store : List MetricsRow) (s : Summary) : List MetricsRow :=
  if store.any (fun r => rowMatchesKey r (metricsKey s.levelOfCare s.filters)) then
    store.map (fun r =>
      if rowMatchesKey r (metricsKey s.levelOfCare s.filters) then applyMetrics r s
      else r)
  else store ++ [metricsRow s]

/-- Every filter dimension is explicitly present. -/
def allDimsPresent (f : Filters) : Prop :=
  f.stateTreatedAt ≠ none ∧ f.payerName ≠ none ∧ f.payerClass ≠ none ∧
    f.serviceYear ≠ none ∧ f.paymentReceivedYear ≠ none

/-- C6 counterexample: recomputing with the same bucket (DETOX) and the
same — empty — filter set creates a second row instead of overwriting: the
first run stores NULL dimension columns, and the upsert key built from
`''`/`0` sentinels never matches them. -/
theorem C6_counterexample :
    upsertMetrics (upsertMetrics [] (zeroSummary "DETOX" defaultFilters))
        (zeroSummary "DETOX" defaultFilters) =
      [metricsRow (zeroSummary "DETOX" defaultFilters),
        metricsRow (zeroSummary "DETOX" defaultFilters)] ∧
    (upsertMetrics (upsertMetrics [] (zeroSummary "DETOX" defaultFilters))
        (zeroSummary "DETOX" defaultFilters)).length ≠ 1 := by decide

/-- C6 (amended): rows are keyed by (levelOfCare, stateTreatedAt,
payerName, payerClass, serviceYear, paymentReceivedYear) with missing
dimensions replaced by `''`/`0` sentinels **in the upsert key only**; when
every filter dimension is explicitly present, the created row matches its
own key and recomputing with the same bucket and filters overwrites the
row in place (no duplicate); but when a dimension is missing, the created
row carries NULL where the key carries the sentinel, the key never matches
it, and every recomputation appends a fresh row. -/
theorem C6_upsert :
    (∀ s : Summary, allDimsPresent s.filters →
      rowMatchesKey (metricsRow s) (metricsKey s.levelOfCare s.filters) = true) ∧
    (∀ (store : List MetricsRow) (s : Summary),
      store.any (fun r => rowMatchesKey r (metricsKey s.levelOfCare s.filters)) = true →
      (upsertMetrics store s).length = store.length) ∧
    (∀ s s' : Summary, allDimsPresent s.filters →
      s'.levelOfCare = s.levelOfCare → s'.filters = s.filters →
      upsertMetrics (upsertMetrics [] s) s' =
        [applyMetrics (metricsRow s) s']) ∧
    (∀ s : Summary, ¬ allDimsPresent s.filters →
      rowMatchesKey (metricsRow s) (metricsKey s.levelOfCare s.filters) = false) := by
  have hmatch : ∀ s : Summary, allDimsPresent s.filters →
      rowMatchesKey (metricsRow s) (metricsKey s.levelOfCare s.filters) = true := by
    intro s hd
    obtain ⟨h1, h2, h3, h4, h5⟩ := hd
    obtain ⟨a1, ha1⟩ := Option.ne_none_iff_exists'.mp h1
    obtain ⟨a2, ha2⟩ := Option.ne_none_iff_exists'.mp h2
    obtain ⟨a3, ha3⟩ := Option.ne_none_iff_exists'.mp h3
    obtain ⟨a4, ha4⟩ := Option.ne_none_iff_exists'.mp h4
    obtain ⟨a5, ha5⟩ := Option.ne_none_iff_exists'.mp h5
    simp [rowMatchesKey, metricsRow, metricsKey, ha1, ha2, ha3, ha4, ha5]
  refine ⟨hmatch, ?_, ?_, ?_⟩
  · intro store s h
    unfold upsertMetrics
    rw [if_pos h]
    exact List.length_map _ _
  · intro s s' hd hl hf
    have hkey : metricsKey s'.levelOfCare s'.filters =
        metricsKey s.levelOfCare s.filters := by rw [hl, hf]
    have h1 : upsertMetrics [] s = [metricsRow s] := by
      unfold upsertMetrics
      rw [if_neg (by simp)]
      rfl
    rw [h1]
    unfold upsertMetrics
    rw [hkey]
    rw [if_pos (by simp [hmatch s hd])]
    simp [hmatch s hd]
  · intro s hd
    by_cases h1 : s.filters.stateTreatedAt = none
    · simp [rowMatchesKey, metricsRow, metricsKey, h1]
    by_cases h2 : s.filters.payerName = none
    · simp [rowMatchesKey, metricsRow, metricsKey, h2]
    by_cases h3 : s.filters.payerClass = none
    · simp [rowMatchesKey, metricsRow, metricsKey, h3]
    by_cases h4 : s.filters.serviceYear = none
    · simp [rowMatchesKey, metricsRow, metricsKey, h4]
    by_cases h5 : s.filters.paymentReceivedYear = none
    · simp [rowMatchesKey, metricsRow, metricsKey, h5]
    exact absurd ⟨h1, h2, h3, h4, h5⟩ hd

/-- A filter set with every dimension present. -/
def fullFilters : Filters :=
  { stateTreatedAt := some "CA", payerName := some "Acme",
    payerClass := some "Commercial", serviceYear := some 2021,
    paymentReceivedYear := some 2022 }

/-- Witness for C6: with every dimension present, recomputing the DETOX
summary with the same filters overwrites the single stored row. -/
theorem C6_upsert_witness :
    upsertMetrics (upsertMetrics [] (zeroSummary "DETOX" fullFilters))
        (zeroSummary "DETOX" fullFilters) =
      [applyMetrics (metricsRow (zeroSummary "DETOX" fullFilters))
        (zeroSummary "DETOX" fullFilters)] :=
  C6_upsert.2.2.1 (zeroSummary "DETOX" fullFilters)
    (zeroSummary "DETOX" fullFilters)
    (by unfold allDimsPresent zeroSummary fullFilters; decide) rfl rfl

/-! ## The batch persister `saveDataToDatabase` (C4) -/

/-- A cleaned record as persisted. -/
abbrev Rec := List (String × JSValue)

/-- The record store as seen by the persister: bulk insert with
duplicate-skipping and single-record insert, each able to fail
(`Except.error` models a thrown storage error). -/
structure SaveDb where
  createMany : List Rec → Except String Unit
  create : Rec → Except String Unit

/-- Whether the single-record insert of `r` succeeds. -/
def createOk (db : SaveDb) (r : Rec) : Bool :=
  match db.create r with
  | .ok _ => true
  | .error _ => false

/-- The per-record fallback loop for a failed batch: try each record,
increment the saved count on success, log the failing record's content on
failure (the returned list), never aborting the rest of the batch. -/
def individualLoop (db : SaveDb) : List Rec → ℕ → ℕ × List Rec
  | [], saved => (saved, [])
  | r :: rest, saved =>
    match db.create r with
    | .ok _ => individualLoop db rest (saved + 1)
    | .error _ =>
      ((individualLoop db rest saved).1, r :: (individualLoop db rest saved).2)

/-- One batch: bulk insert, falling back to individual inserts on failure;
yields (records saved, failing records). -/
def batchOutcome (db : SaveDb) (batch : List Rec) : ℕ × List Rec :=
  match db.createMany batch with
  | .ok _ => (batch.length, [])
  | .error _ => individualLoop db batch 0

/-- The batch decomposition `data.slice(i, i + 50)` for `i = 0, 50, …`
(fuel-based structural recursion; `fuel = data.length` suffices). -/
def chunksFuel : ℕ → List Rec → List (List Rec)
  | _, [] => []
  | 0, _ :: _ => []
  | fuel + 1, r :: rest => (r :: rest).take 50 :: chunksFuel fuel ((r :: rest).drop 50)

/-- The sequence of batches of `saveDataToDatabase`. -/
def chunks50 (data : List Rec) : List (List Rec) := chunksFuel data.length data

/-- The batch loop, accumulating the saved count and the failure log. -/
def saveLoopFuel (db : SaveDb) : ℕ → List Rec → ℕ × List Rec → ℕ × List Rec
  | _, [], acc => acc
  | 0, _ :: _, acc => acc
  | fuel + 1, r :: rest, acc =>
    saveLoopFuel db fuel ((r :: rest).drop 50)
      (acc.1 + (batchOutcome db ((r :: rest).take 50)).1,
        acc.2 ++ (batchOutcome db ((r :: rest).take 50)).2)

/-- What `saveDataToDatabase` reports: records attempted (`data.length`),
records persisted (`savedCount`), and the failure log. -/
structure SaveResult where
  attempted : ℕ
  saved : ℕ
  failed : List Rec
deriving DecidableEq, Repr

/-- `saveDataToDatabase`: batches of 50, bulk insert per batch, per-record
fallback on batch failure.  Total by construction — partial failure never
raises. -/
def saveDataToDatabase (db : SaveDb) (data : List Rec) : SaveResult :=
  { attempted := data.length,
    saved := (saveLoopFuel db data.length data (0, [])).1,
    failed := (saveLoopFuel db data.length data (0, [])).2 }

theorem individualLoop_spec (db : SaveDb) :
    ∀ (batch : List Rec) (saved : ℕ),
      individualLoop db batch saved =
        (saved + (batch.filter (createOk db)).length,
          batch.filter (fun r => ! createOk db r)) := by
  intro batch
  induction batch with
  | nil => intro saved; simp [individualLoop]
  | cons r rest ih =>
    intro saved
    have hco : createOk db r = (match db.create r with
        | .ok _ => true | .error _ => false) := rfl
    cases hc : db.create r with
    | ok u =>
      rw [hc] at hco
      unfold individualLoop
      rw [hc, ih]
      simp [List.filter_cons, hco]
      omega
    | error e =>
      rw [hc] at hco
      unfold individualLoop
      rw [hc, ih, ih]
      simp [List.filter_cons, hco]

theorem batchOutcome_spec (db : SaveDb) (batch : List Rec) :
    batchOutcome db batch =
      (match db.createMany batch with
        | .ok _ => batch.length
        | .error _ => (batch.filter (createOk db)).length,
       match db.createMany batch with
        | .ok _ => ([] : List Rec)
        | .error _ => batch.filter (fun r => ! createOk db r)) := by
  unfold batchOutcome
  cases db.createMany batch with
  | ok u => rfl
  | error e => rw [individualLoop_spec]; simp

theorem chunksFuel_join :
    ∀ (fuel : ℕ) (data : List Rec), data.length ≤ fuel →
      (chunksFuel fuel data).flatten = data := by
  intro fuel
  induction fuel with
  | zero =>
    intro data h
    cases data with
    | nil => rfl
    | cons r t => simp at h
  | succ fuel ih =>
    intro data h
    cases data with
    | nil => rfl
    | cons r t =>
      rw [chunksFuel]
      simp only [List.flatten_cons]
      rw [ih _ (by
        simp only [List.length_drop, List.length_cons]
        simp only [List.length_cons] at h
        omega)]
      exact List.take_append_drop 50 (r :: t)

theorem chunksFuel_sizes :
    ∀ (fuel : ℕ) (data : List Rec), ∀ b ∈ chunksFuel fuel data,
      0 < b.length ∧ b.length ≤ 50 := by
  intro fuel
  induction fuel with
  | zero =>
    intro data b hb
    cases data with
    | nil => cases hb
    | cons r t => cases hb
  | succ fuel ih =>
    intro data b hb
    cases data with
    | nil => cases hb
    | cons r t =>
      rw [chunksFuel] at hb
      rcases List.mem_cons.mp hb with he | hm
      · subst he
        constructor
        · simp
        · simp
      · exact ih _ b hm

theorem chunksFuel_ne_nil :
    ∀ (fuel : ℕ) (data : List Rec), chunksFuel fuel data ≠ [] → data ≠ [] := by
  intro fuel data h
  cases data with
  | nil => cases fuel <;> exact absurd rfl h
  | cons r t => exact List.cons_ne_nil r t

theorem chunksFuel_dropLast :
    ∀ (fuel : ℕ) (data : List Rec), ∀ b ∈ (chunksFuel fuel data).dropLast,
      b.length = 50 := by
  intro fuel
  induction fuel with
  | zero =>
    intro data b hb
    cases data with
    | nil => cases hb
    | cons r t => cases hb
  | succ fuel ih =>
    intro data b hb
    cases data with
    | nil => cases hb
    | cons r t =>
      rw [chunksFuel] at hb
      cases hC : chunksFuel fuel ((r :: t).drop 50) with
      | nil => rw [hC] at hb; cases hb
      | cons c cs =>
        rw [hC, List.dropLast_cons₂] at hb
        rcases List.mem_cons.mp hb with he | hm
        · subst he
          have hd : (r :: t).drop 50 ≠ [] :=
            chunksFuel_ne_nil fuel _ (by rw [hC]; exact List.cons_ne_nil c cs)
          have : 50 < (r :: t).length := by
            by_contra hle
            exact hd (List.drop_eq_nil_of_le (by omega))
          rw [List.length_take]
          simp only [List.length_cons] at this ⊢
          omega
        · exact ih _ b (by rw [hC]; exact hm)

theorem saveLoopFuel_spec (db : SaveDb) :
    ∀ (fuel : ℕ) (data : List Rec) (acc : ℕ × List Rec),
      saveLoopFuel db fuel data acc =
        (acc.1 + ((chunksFuel fuel data).map (fun b => (batchOutcome db b).1)).sum,
          acc.2 ++ ((chunksFuel fuel data).map (fun b => (batchOutcome db b).2)).flatten) := by
  intro fuel
  induction fuel with
  | zero =>
    intro data acc
    cases data with
    | nil => simp [saveLoopFuel, chunksFuel]
    | cons r t => simp [saveLoopFuel, chunksFuel]
  | succ fuel ih =>
    intro data acc
    cases data with
    | nil => simp [saveLoopFuel, chunksFuel]
    | cons r t =>
      rw [saveLoopFuel, ih, chunksFuel]
      simp [Nat.add_assoc]

theorem batchOutcome_fst_le (db : SaveDb) (b : List Rec) :
    (batchOutcome db b).1 ≤ b.length := by
  rw [batchOutcome_spec]
  cases hc : db.createMany b <;> simp [hc, List.length_filter_le]

/-- C4: `saveDataToDatabase` partitions its input into batches of 50 (every
batch nonempty and of size ≤ 50, all but the last of size exactly 50, and
the batches concatenate back to the input); each batch contributes its full
length to the saved count when the bulk insert succeeds and otherwise
exactly its individually-succeeding records, independently of any other
batch; the failure log is exactly the individually-failing records of the
failed batches (logged with their content); the function reports attempted
vs persisted counts, saved ≤ attempted, and is total — partial failure
never raises. -/
theorem C4_saveDataToDatabase (db : SaveDb) (data : List Rec) :
    (saveDataToDatabase db data).attempted = data.length ∧
    (chunks50 data).flatten = data ∧
    (∀ b ∈ chunks50 data, 0 < b.length ∧ b.length ≤ 50) ∧
    (∀ b ∈ (chunks50 data).dropLast, b.length = 50) ∧
    (saveDataToDatabase db data).saved =
      ((chunks50 data).map (fun b =>
        match db.createMany b with
        | .ok _ => b.length
        | .error _ => (b.filter (createOk db)).length)).sum ∧
    (saveDataToDatabase db data).failed =
      ((chunks50 data).map (fun b =>
        match db.createMany b with
        | .ok _ => ([] : List Rec)
        | .error _ => b.filter (fun r => ! createOk db r))).flatten ∧
    (saveDataToDatabase db data).saved ≤ (saveDataToDatabase db data).attempted := by
  have hsave : (saveDataToDatabase db data).saved =
      ((chunks50 data).map (fun b => (batchOutcome db b).1)).sum := by
    show (saveLoopFuel db data.length data (0, [])).1 = _
    rw [saveLoopFuel_spec]
    simp [chunks50]
  have hfail : (saveDataToDatabase db data).failed =
      ((chunks50 data).map (fun b => (batchOutcome db b).2)).flatten := by
    show (saveLoopFuel db data.length data (0, [])).2 = _
    rw [saveLoopFuel_spec]
    rfl
  have hjoin : (chunks50 data).flatten = data :=
    chunksFuel_join data.length data le_rfl
  refine ⟨rfl, hjoin, fun b hb => chunksFuel_sizes data.length data b hb,
    fun b hb => chunksFuel_dropLast data.length data b hb, ?_, ?_, ?_⟩
  · rw [hsave]
    congr 1
    apply List.map_congr_left
    intro b _
    rw [batchOutcome_spec]
  · rw [hfail]
    congr 1
    apply List.map_congr_left
    intro b _
    rw [batchOutcome_spec]
  · rw [hsave]
    show _ ≤ data.length
    calc ((chunks50 data).map (fun b => (batchOutcome db b).1)).sum
        ≤ ((chunks50 data).map (fun b => b.length)).sum := by
          apply List.sum_le_sum
          intro b _
          exact batchOutcome_fst_le db b
      _ = data.length := by
          conv_rhs => rw [← hjoin, List.length_flatten]

/-- A store whose bulk insert always fails and whose single-record insert
fails exactly on records containing the key `bad`. -/
def dbFallback : SaveDb :=
  { createMany := fun _ => .error "bulk failure",
    create := fun r =>
      if r.any (fun p => p.1 = "bad") then .error "bad record" else .ok () }

/-- Three records, the middle one individually unsaveable. -/
def sampleData : List Rec :=
  [[("a", .num 1)], [("bad", .num 2)], [("b", .num 3)]]

/-- Witness for C4: applying the theorem at a concrete store whose bulk
inserts fail — two of the three records are individually saved, the bad
one is logged, and the only batch has a valid size. -/
theorem C4_saveDataToDatabase_witness :
    (saveDataToDatabase dbFallback sampleData).saved = 2 ∧
    (saveDataToDatabase dbFallback sampleData).attempted = 3 ∧
    (saveDataToDatabase dbFallback sampleData).failed = [[("bad", .num 2)]] ∧
    (0 < sampleData.length ∧ sampleData.length ≤ 50) := by
  have h := C4_saveDataToDatabase dbFallback sampleData
  refine ⟨?_, ?_, ?_, ?_⟩
  · rw [h.2.2.2.2.1]
    decide
  · rw [h.1]
    decide
  · rw [h.2.2.2.2.2.1]
    decide
  · exact h.2.2.1 sampleData (by decide)

end Claims
